import Mathlib

set_option maxHeartbeats 1000000

/- Shallow embedding of the Webboard audio engine.

   Sources embedded here:
   - the AudioService class (voice lifecycle, pitch bend, glide, sustain,
     modulation wiring, arpeggiator) from src/unnamed/part_000;
   - the FREQUENCIES table generator and INITIAL_SETTINGS from
     src/unnamed/part_006;
   - the gesture-modulation effect of the App component from
     src/unnamed/part_007.

   Modelling conventions:
   - Frequencies are encoded in exact log2 space relative to A4 = 440 Hz:
     a frequency f is represented by the rational log2(f / 440).  Every
     frequency the source manipulates has the form 440 * 2^q with q
     rational (the 12-TET table entries and their pitch-bend or detune
     multiples), and the source only multiplies frequencies by rational
     powers of two, so the encoding is exact and injective.  In this
     encoding `x * 2^(k/12)` becomes `x + k/12`.
   - Web Audio AudioParam automation calls are recorded per parameter as a
     list of events, in call order.  The call pattern
     `p.setValueAtTime(p.value, now)` (hold the current computed value) is
     recorded as a dedicated event since it reads the parameter itself.
   - setTimeout callbacks are recorded as pending tasks carrying their
     scheduled fire time and captured arguments; a separate step function
     fires a task.  JavaScript object identity (used by the teardown
     guard `this.activeOscillators.get(note) === entry`) is modelled by a
     per-voice numeric id drawn from a counter.
   - The JS Map is modelled as an insertion-ordered association list with
     Map semantics: get returns the entry for a key, set overwrites an
     existing key in place or appends a new one, delete removes the entry.
   - `noteOnLog` is pure instrumentation recording each successfully
     handled noteOn (note, velocity, time); the source has no such field.
   - ctx.resume() and the audio-graph wiring that carries no per-voice
     state (reverb, analyser, main gain) are not modelled; fields of the
     settings object that the embedded code never reads are omitted. -/

inductive ModSource
  | LFO | ENV | Gesture_L_H | Gesture_L_V | Gesture_R_H | Gesture_R_V | Gesture_Dist
deriving DecidableEq

inductive ModDestination
  | Cutoff | Resonance | Pitch | Gain | Reverb | Delay
deriving DecidableEq

structure ModRoute where
  source : ModSource
  destination : ModDestination
  amount : ℚ
deriving DecidableEq

inductive PatchCategory
  | Lead | Pad | Bass | Keys | Strings
deriving DecidableEq

inductive KeySlideTarget
  | Cutoff | Resonance | Pitch | Vibrato
deriving DecidableEq

structure SynthSettings where
  patchCategory : PatchCategory
  cutoff : ℚ
  resonance : ℚ
  reverb : ℚ
  attack : ℚ
  release : ℚ
  detune : ℚ
  lfoRate : ℚ
  delayTime : ℚ
  delayFeedback : ℚ
  arpRate : ℚ
  octave : Int
  pitchBend : ℚ
  glide : ℚ
  monoMode : Bool
  sustain : Bool
  keySlideTarget : KeySlideTarget
  modMatrix : List ModRoute
deriving DecidableEq

inductive Waveform
  | sine | square | sawtooth
deriving DecidableEq

inductive AutomationEvent
  | setValueAtTime (value time : ℚ)
  | setValueToCurrentAtTime (time : ℚ)
  | linearRampToValueAtTime (value time : ℚ)
  | exponentialRampToValueAtTime (value time : ℚ)
  | setTargetAtTime (target time timeConstant : ℚ)
  | cancelScheduledValues (time : ℚ)
deriving DecidableEq

/-- The scheduled target value of an automation event, when it has one. -/
def eventValue : AutomationEvent → Option ℚ
  | .setValueAtTime v _ => some v
  | .linearRampToValueAtTime v _ => some v
  | .exponentialRampToValueAtTime v _ => some v
  | .setTargetAtTime v _ _ => some v
  | _ => none

/-- The target value of the last automation call issued on a parameter. -/
def finalTarget (l : List AutomationEvent) : Option ℚ :=
  l.getLast?.bind eventValue

inductive ModInput
  | lfo | env | slide
deriving DecidableEq

inductive TargetParam
  | filterFrequency | filterQ | osc1Frequency | noteGainGain | lfoFrequency
deriving DecidableEq

/-- One gain node created by the mod-matrix / key-slide wiring of playNote:
which internal signal is connected into it (none when the route source is
neither LFO nor ENV), which AudioParam it is connected to, and its gain. -/
structure ModGainNode where
  input : Option ModInput
  target : TargetParam
  gainValue : ℚ
deriving DecidableEq

/-- The per-voice record stored in this.activeOscillators (interface
ActiveOscillator of src/unnamed/part_000), with each AudioParam of the
voice graph represented by its automation-event list. -/
structure ActiveOscillator where
  id : Nat
  osc1Type : Waveform
  osc2Type : Waveform
  osc2Detune : List AutomationEvent
  osc1Freq : List AutomationEvent
  osc2Freq : List AutomationEvent
  gainEvents : List AutomationEvent
  filterFreq : List AutomationEvent
  filterQ : List AutomationEvent
  lfoFreq : List AutomationEvent
  envOffset : List AutomationEvent
  slideOffset : List AutomationEvent
  modGains : List ModGainNode
  baseFreq : ℚ
  released : Bool
  stopAt : Option ℚ
deriving DecidableEq

/-- A pending setTimeout callback: the stopNote teardown of a released
voice, or the scheduled noteOff of an arpeggiator note (which captures the
settings object passed to startArp). -/
inductive PendingTask
  | teardown (note : String) (voiceId : Nat) (fireAt : ℚ)
  | arpNoteOff (note : String) (fireAt : ℚ) (settings : SynthSettings)
deriving DecidableEq

def PendingTask.fireAt : PendingTask → ℚ
  | .teardown _ _ t => t
  | .arpNoteOff _ t _ => t

structure AudioState where
  initialized : Bool
  now : ℚ
  activeOscillators : List (String × ActiveOscillator)
  currentPitchBend : ℚ
  lastFrequency : Option ℚ
  currentSustain : Bool
  activeNotesForArp : List String
  currentArpIndex : Nat
  arpTimer : Option (ℚ × SynthSettings)
  delayTimeEvents : List AutomationEvent
  delayFeedbackEvents : List AutomationEvent
  pendingTasks : List PendingTask
  nextVoiceId : Nat
  noteOnLog : List (String × ℚ × ℚ)
deriving DecidableEq

/- JS Map operations on an insertion-ordered association list.
   Keys are unique in a JS Map; these definitions act on the first
   occurrence of a key. -/

def mapGet {β : Type} : List (String × β) → String → Option β
  | [], _ => none
  | (k₀, v) :: rest, k => if k₀ = k then some v else mapGet rest k

def mapSet {β : Type} : List (String × β) → String → β → List (String × β)
  | [], k, v => [(k, v)]
  | (k₀, v₀) :: rest, k, v =>
    if k₀ = k then (k₀, v) :: rest else (k₀, v₀) :: mapSet rest k v

def mapDelete {β : Type} : List (String × β) → String → List (String × β)
  | [], _ => []
  | (k₀, v₀) :: rest, k => if k₀ = k then rest else (k₀, v₀) :: mapDelete rest k

def mapUpdate {β : Type} (f : β → β) : List (String × β) → String → List (String × β)
  | [], _ => []
  | (k₀, v₀) :: rest, k =>
    if k₀ = k then (k₀, f v₀) :: rest else (k₀, v₀) :: mapUpdate f rest k

/- The equal-tempered frequency table (src/unnamed/part_006). -/

def NOTES : List String :=
  ["C", "C#", "D", "D#", "E", "F"] ++ ["F#", "G", "G#", "A", "A#", "B"]

/-- The log2-encoded table frequency of note index i at octave o:
a4 * 2^(semiFromA4 / 12) with semiFromA4 = (octave - 4) * 12 + (i - 9)
becomes (octave - 4) + (i - 9) / 12. -/
def tableValue (o i : ℕ) : ℚ := ((o : ℚ) - 4) + (((i : ℚ)) - 9) / 12

/-- generateFrequencies: keys note+octave for octaves 0..8. -/
def freqTable : List (String × ℚ) :=
  (List.range 9).flatMap fun o =>
    NOTES.enum.map fun p => (p.2 ++ toString o, tableValue o p.1)

/-- FREQUENCIES[key]; the source checks the looked-up value for JS
falsiness, and no table frequency is 0 (all are 440 * 2^q > 0), so absence
from the table is the only falsy case and Option models it exactly. -/
def FREQUENCIES (key : String) : Option ℚ := mapGet freqTable key

/- The note.match(/([A-G#]+)(\d+)/) regex of playNote. -/

def isNoteChar (c : Char) : Bool := ('A' ≤ c && c ≤ 'G') || c = '#'

def isDigitChar (c : Char) : Bool := '0' ≤ c && c ≤ '9'

/-- Leftmost match of ([A-G#]+)(\d+): because the two character classes are
disjoint, the greedy match needs no backtracking — the regex matches at the
first maximal run of [A-G#] characters that is immediately followed by a
digit; a failed candidate run is skipped whole (every suffix of it fails at
the same non-digit).  The fuel argument (initialised to the list length)
only bounds the recursion; each recursive call strictly shortens the list,
so the fuel is never exhausted on the initial call. -/
def findNoteMatchAux : Nat → List Char → Option (List Char × List Char)
  | 0, _ => none
  | _, [] => none
  | fuel + 1, c :: rest =>
    if isNoteChar c then
      let after := rest.dropWhile isNoteChar
      let digits := after.takeWhile isDigitChar
      if digits.isEmpty then findNoteMatchAux fuel after
      else some (c :: rest.takeWhile isNoteChar, digits)
    else findNoteMatchAux fuel rest

def findNoteMatch (l : List Char) : Option (List Char × List Char) :=
  findNoteMatchAux l.length l

/-- parseInt on the digit group (the group matches \d+, so this is plain
decimal). -/
def parseDigits (l : List Char) : Nat :=
  l.foldl (fun n c => n * 10 + (c.toNat - 48)) 0

/-- Note-name resolution of playNote: match the regex, add settings.octave
to the parsed octave, rebuild the key by string concatenation (an Int
renders as in a JS template literal), and look the key up in FREQUENCIES.
When the regex does not match, shiftedNote stays equal to note. -/
def resolveNote (note : String) (octave : Int) : Option ℚ :=
  match findNoteMatch note.data with
  | some lg =>
      FREQUENCIES (String.mk lg.1 ++ toString ((parseDigits lg.2 : Int) + octave))
  | none => FREQUENCIES note

/-- getBentFrequency: baseFreq * 2^((bend * bendRange) / 12) with
bendRange = 2; in the log2 encoding this is addition of bend * 2 / 12. -/
def getBentFrequency (bend baseFreq : ℚ) : ℚ := baseFreq + bend * 2 / 12

/- AudioService operations. -/

/-- The per-voice body of the setPitchBend forEach: retarget both
oscillator frequencies toward the bent frequency with a 30 ms time
constant; the stored baseFreq is read, never written. -/
def bendUpd (value now : ℚ) (w : ActiveOscillator) : ActiveOscillator :=
  { w with
    osc1Freq := w.osc1Freq ++
      [.setTargetAtTime (getBentFrequency value w.baseFreq) now (3/100)],
    osc2Freq := w.osc2Freq ++
      [.setTargetAtTime (getBentFrequency value w.baseFreq) now (3/100)] }

def setPitchBend (s : AudioState) (value : ℚ) : AudioState :=
  let s1 := { s with currentPitchBend := value }
  if s1.initialized = false then s1 else
  { s1 with activeOscillators :=
      s1.activeOscillators.map fun p => (p.1, bendUpd value s1.now p.2) }

def updateNoteSlide (s : AudioState) (note : String) (slide : ℚ) : AudioState :=
  match mapGet s.activeOscillators note with
  | none => s
  | some _ =>
    if s.initialized = false then s else
    { s with activeOscillators := (mapUpdate (fun v =>
        { v with slideOffset := v.slideOffset ++ [.setTargetAtTime slide s.now (1/100)] })
        s.activeOscillators note) }

/-- The destination switch of the mod-matrix wiring loop: the scale
constant and target AudioParam, none when the case leaves target null
(Reverb, Delay and any other unlisted destination). -/
def scaleAndTarget : ModDestination → Option (ℚ × TargetParam)
  | .Cutoff => some (6000, .filterFrequency)
  | .Resonance => some (15, .filterQ)
  | .Pitch => some (800, .osc1Frequency)
  | .Gain => some (1/2, .noteGainGain)
  | .Reverb => none
  | .Delay => none

/-- Which internal signal the source checks connect into the mod gain:
lfo.connect if source is LFO, envSource.connect if ENV, nothing
otherwise (in particular nothing for the Gesture_* sources). -/
def signalOf : ModSource → Option ModInput
  | .LFO => some .lfo
  | .ENV => some .env
  | _ => none

/-- One iteration of settings.modMatrix.forEach in playNote: when the
destination has a target, a gain node is created with gain
route.amount * scale, the LFO or ENV signal (if the source is one of
those) is connected into it, and it is connected to the target and pushed
onto modGains; when target stays null nothing is kept. -/
def connOfRoute (route : ModRoute) : Option ModGainNode :=
  match scaleAndTarget route.destination with
  | none => none
  | some st => some { input := signalOf route.source, target := st.2,
                      gainValue := route.amount * st.1 }

/-- The expression (key-slide) gain wiring: every KeySlideTarget case sets
a scale and target, and slideSource is connected through the gain. -/
def keySlideConn : KeySlideTarget → ModGainNode
  | .Cutoff => { input := some .slide, target := .filterFrequency, gainValue := 12000 }
  | .Resonance => { input := some .slide, target := .filterQ, gainValue := 30 }
  | .Pitch => { input := some .slide, target := .osc1Frequency, gainValue := 2400 }
  | .Vibrato => { input := some .slide, target := .lfoFrequency, gainValue := 20 }

/-- The patchCategory switch: oscillator waveform pair and the osc2.detune
value set at voice creation (detune is in cents and kept linear). -/
def categoryOscs (settings : SynthSettings) : Waveform × Waveform × ℚ :=
  match settings.patchCategory with
  | .Lead => (.sawtooth, .square, settings.detune + 12)
  | .Pad => (.sine, .sawtooth, settings.detune + 7)
  | .Bass => (.square, .sawtooth, -1200)
  | .Keys => (.sine, .sine, 1200)
  | .Strings => (.sawtooth, .sawtooth, settings.detune + 5)

/-- The mono retarget applied to the existing voice object (source lines
128-138): cancel in-flight frequency automation on both oscillators, ramp
exponentially over glide seconds to the bent target (or set instantly when
glide is 0), store the new base frequency, clear the released flag. -/
def retargetVoice (s : AudioState) (settings : SynthSettings) (baseFreq : ℚ)
    (entry : ActiveOscillator) : ActiveOscillator :=
  let now := s.now
  let targetFreq := getBentFrequency s.currentPitchBend baseFreq
  { entry with
    osc1Freq := entry.osc1Freq ++ [.cancelScheduledValues now] ++
      (if 0 < settings.glide then
        [.exponentialRampToValueAtTime targetFreq (now + settings.glide)]
      else [.setValueAtTime targetFreq now]),
    osc2Freq := entry.osc2Freq ++ [.cancelScheduledValues now] ++
      (if 0 < settings.glide then
        [.exponentialRampToValueAtTime targetFreq (now + settings.glide)]
      else [.setValueAtTime targetFreq now]),
    baseFreq := baseFreq,
    released := false }

/-- The voice record constructed by the allocation path of playNote
(source lines 148-250): oscillator types and detune from the patch
category, glide from the last sounding frequency when enabled, attack
ramps on gain and envelope over max(5 ms, attack), mod-matrix and
key-slide wiring. -/
def allocVoice (s : AudioState) (settings : SynthSettings)
    (velocity initialSlide baseFreq : ℚ) : ActiveOscillator :=
  let now := s.now
  let targetFreq := getBentFrequency s.currentPitchBend baseFreq
  let c := categoryOscs settings
  -- the JS truthiness test on this.lastFrequency: a stored linear
  -- frequency is never 0, so only null (none) is falsy
  let glideFromLast := decide (0 < settings.glide) && s.lastFrequency.isSome
  let startFreq := if glideFromLast then s.lastFrequency.getD targetFreq else targetFreq
  let freqEvents := [AutomationEvent.setValueAtTime startFreq now] ++
    (if glideFromLast then
      [AutomationEvent.exponentialRampToValueAtTime targetFreq (now + settings.glide)]
    else [])
  let atk := max (1/200) settings.attack
  { id := s.nextVoiceId,
    osc1Type := c.1,
    osc2Type := c.2.1,
    osc2Detune := [.setValueAtTime c.2.2 now],
    osc1Freq := freqEvents,
    osc2Freq := freqEvents,
    gainEvents := [.setValueAtTime 0 now, .linearRampToValueAtTime velocity (now + atk)],
    filterFreq := [.setValueAtTime settings.cutoff now],
    filterQ := [.setValueAtTime (settings.resonance * 8) now],
    lfoFreq := [.setValueAtTime settings.lfoRate now],
    envOffset := [.setValueAtTime 0 now, .linearRampToValueAtTime 1 (now + atk)],
    slideOffset := [.setValueAtTime initialSlide now],
    modGains := settings.modMatrix.filterMap connOfRoute ++
      [keySlideConn settings.keySlideTarget],
    baseFreq := baseFreq,
    released := false,
    stopAt := none }

def playNote (s : AudioState) (note : String) (settings : SynthSettings)
    (velocity : ℚ := 2/5) (initialSlide : ℚ := 1/2) : AudioState :=
  if s.initialized = false then s else
  match resolveNote note settings.octave with
  | none => s
  | some baseFreq =>
    let now := s.now
    let targetFreq := getBentFrequency s.currentPitchBend baseFreq
    match settings.monoMode, s.activeOscillators with
    | true, (existingNote, entry) :: rest =>
      -- mono retarget branch (no new voice)
      let entry1 := retargetVoice s settings baseFreq entry
      let m0 := (existingNote, entry1) :: rest
      let m1 := if existingNote = note then m0
                else mapSet (mapDelete m0 existingNote) note entry1
      let s1 := { s with activeOscillators := m1,
                         lastFrequency := some targetFreq,
                         noteOnLog := s.noteOnLog ++ [(note, velocity, now)] }
      updateNoteSlide s1 note initialSlide
    | _, _ =>
      -- allocation branch
      { s with
        activeOscillators := (mapSet s.activeOscillators note
          (allocVoice s settings velocity initialSlide baseFreq)),
        lastFrequency := some targetFreq,
        nextVoiceId := s.nextVoiceId + 1,
        noteOnLog := s.noteOnLog ++ [(note, velocity, now)] }

/-- The cancel / hold-current-value / exponential-ramp-to-0.001 triple that
stopNote issues on the note gain and on the envelope offset. -/
def releaseEvents (now rt : ℚ) : List AutomationEvent :=
  [.cancelScheduledValues now, .setValueToCurrentAtTime now,
   .exponentialRampToValueAtTime (1/1000) (now + rt)]

/-- The per-voice effect of the stopNote release branch: the release
ramps on gain and envelope offset, and the oscillator/source stop calls
at now + releaseTime + 0.1. -/
def releaseUpd (now rt : ℚ) (v : ActiveOscillator) : ActiveOscillator :=
  { v with
    gainEvents := v.gainEvents ++ releaseEvents now rt,
    envOffset := v.envOffset ++ releaseEvents now rt,
    stopAt := some (now + rt + 1/10) }

def stopNote (s : AudioState) (note : String) (settings : SynthSettings)
    (immediate : Bool := false) : AudioState :=
  match mapGet s.activeOscillators note with
  | none => s
  | some entry =>
    if s.initialized = false then s else
    if s.currentSustain && !immediate then
      { s with activeOscillators :=
          (mapUpdate (fun v => { v with released := true }) s.activeOscillators note) }
    else
      let now := s.now
      let rt : ℚ := if immediate then 1/100 else settings.release
      { s with
        activeOscillators := (mapUpdate (releaseUpd now rt) s.activeOscillators note),
        pendingTasks := s.pendingTasks ++ [.teardown note entry.id (now + rt + 1/5)] }

/-- Body of the setTimeout scheduled by stopNote: disconnect the nodes (no
modelled state) and delete the map entry only if it still references the
same voice object, modelled by the id comparison. -/
def applyTeardown (s : AudioState) (note : String) (voiceId : Nat) : AudioState :=
  match mapGet s.activeOscillators note with
  | none => s
  | some v =>
    if v.id = voiceId then
      { s with activeOscillators := mapDelete s.activeOscillators note }
    else s

/-- Fire one pending setTimeout callback (removing it from the queue and
advancing the clock to its scheduled time). -/
def fireTask (s : AudioState) (t : PendingTask) : AudioState :=
  if t ∈ s.pendingTasks then
    let s1 := { s with pendingTasks := s.pendingTasks.erase t,
                       now := max s.now t.fireAt }
    match t with
    | .teardown note vid _ => applyTeardown s1 note vid
    | .arpNoteOff note _ st => stopNote s1 note st false
  else s

/-- The per-voice broadcast of updateGlobalParams: retarget filter cutoff,
filter Q and LFO rate with a 50 ms time constant. -/
def broadcastParams (settings : SynthSettings) (now : ℚ) (v : ActiveOscillator) :
    ActiveOscillator :=
  { v with
    filterFreq := v.filterFreq ++ [.setTargetAtTime settings.cutoff now (1/20)],
    filterQ := v.filterQ ++ [.setTargetAtTime (settings.resonance * 8) now (1/20)],
    lfoFreq := v.lfoFreq ++ [.setTargetAtTime settings.lfoRate now (1/20)] }

/-- The unconditional tail of updateGlobalParams after the sustain-release
check (source lines 302-315): set the sustain flag, retarget the delay
parameters, broadcast filter/LFO retargets to every live voice, and
resynchronise the pitch bend if the settings disagree with the stored
bend. -/
def globalTail (s1 : AudioState) (settings : SynthSettings) (now : ℚ) : AudioState :=
  let s2 := { s1 with
    currentSustain := settings.sustain,
    delayTimeEvents := s1.delayTimeEvents ++
      [AutomationEvent.setTargetAtTime settings.delayTime now (1/10)],
    delayFeedbackEvents := s1.delayFeedbackEvents ++
      [AutomationEvent.setTargetAtTime settings.delayFeedback now (1/10)] }
  let s3 := { s2 with activeOscillators :=
    (s2.activeOscillators.map fun (p : String × ActiveOscillator) =>
      (p.1, broadcastParams settings now p.2)) }
  if settings.pitchBend ≠ s3.currentPitchBend then setPitchBend s3 settings.pitchBend else s3

def updateGlobalParams (s : AudioState) (settings : SynthSettings) : AudioState :=
  if s.initialized = false then s else
  let s1 : AudioState :=
    if s.currentSustain && !settings.sustain then
      let s0 := { s with currentSustain := false }
      -- forEach over the live map; stopNote never changes a released flag
      -- or removes an entry here, so folding over the entry snapshot agrees
      -- with the live iteration
      s0.activeOscillators.foldl
        (fun st p => if p.2.released then stopNote st p.1 settings false else st) s0
    else s
  globalTail s1 settings s.now

/- Arpeggiator. -/

def stopArp (s : AudioState) : AudioState :=
  { s with arpTimer := none, currentArpIndex := 0 }

/-- One execution of the tick closure created by startArp (which captures
the settings passed to startArp; the rescheduled timer carries the same
settings).  The JS code indexes activeNotesForArp at currentArpIndex with
no bounds check; the index is always in range along the executions this
development examines, and the default "" (whose lookup fails) stands in
for the out-of-range access. -/
def arpTick (s : AudioState) (settings : SynthSettings) : AudioState :=
  if s.activeNotesForArp.isEmpty then stopArp s
  else
    let note := s.activeNotesForArp.getD s.currentArpIndex ""
    let s1 := playNote s note settings (3/10) (1/2)
    { s1 with
      pendingTasks := s1.pendingTasks ++
        [.arpNoteOff note (s1.now + 60 / settings.arpRate * (4/5)) settings],
      currentArpIndex := (s1.currentArpIndex + 1) % s1.activeNotesForArp.length,
      arpTimer := some (s1.now + 60 / settings.arpRate, settings) }

/-- Lexicographic strict order on character lists by code unit, the order
underlying the JS default sort comparator (UTF-16 code units; for these
ASCII note names identical to codepoint order). -/
def charListLt : List Char → List Char → Bool
  | [], [] => false
  | [], _ :: _ => true
  | _ :: _, [] => false
  | a :: as, b :: bs =>
    if a.toNat < b.toNat then true
    else if b.toNat < a.toNat then false
    else charListLt as bs

/-- a sorts no later than b under the JS default comparator. -/
def jsLe (a b : String) : Bool := !(charListLt b.data a.data)

def insertSorted (a : String) : List String → List String
  | [] => [a]
  | b :: rest => if jsLe a b then a :: b :: rest else b :: insertSorted a rest

/-- [...notes].sort(): the JS default sort with a total order produces the
unique ascending reordering of the array, here computed by insertion
sort. -/
def jsSortStrings (l : List String) : List String := l.foldr insertSorted []

def startArp (s : AudioState) (notes : List String) (settings : SynthSettings) :
    AudioState :=
  let s1 := { s with activeNotesForArp := jsSortStrings notes }
  if s1.arpTimer.isSome then s1 else arpTick s1 settings

/-- Fire the pending arpeggiator timer (the rescheduling setTimeout),
advancing the clock to its scheduled time. -/
def fireArpTick (s : AudioState) : AudioState :=
  match s.arpTimer with
  | none => s
  | some ts => arpTick { s with now := max s.now ts.1, arpTimer := none } ts.2

def runTicks (s : AudioState) : Nat → AudioState
  | 0 => s
  | n + 1 => runTicks (fireArpTick s) n

/- Gesture-modulation effect of the App component (src/unnamed/part_007):
   one evaluation of the setSettings updater run on a gesture frame. -/

structure HandGesture where
  x : ℚ
  y : ℚ
  active : Bool
  isPincer : Bool
  isClosed : Bool
deriving DecidableEq

structure GestureState where
  leftHand : HandGesture
  rightHand : HandGesture
  distance : ℚ
deriving DecidableEq

/-- route.source.startsWith Gesture. -/
def isGestureSource : ModSource → Bool
  | .Gesture_L_H | .Gesture_L_V | .Gesture_R_H | .Gesture_R_V | .Gesture_Dist => true
  | _ => false

/-- The sourceValue switch (initialised to 0, so a non-gesture source
would read 0; the startsWith guard makes that case unreachable). -/
def gestureSourceValue (gs : GestureState) : ModSource → ℚ
  | .Gesture_L_H => gs.leftHand.x
  | .Gesture_L_V => gs.leftHand.y
  | .Gesture_R_H => gs.rightHand.x
  | .Gesture_R_V => gs.rightHand.y
  | .Gesture_Dist => gs.distance
  | _ => 0

/-- Pose multiplier: a closed hand intensifies modulation by 1.5. -/
def poseMult (gs : GestureState) : ℚ :=
  if gs.leftHand.isClosed || gs.rightHand.isClosed then 3/2 else 1

/-- One iteration of prev.modMatrix.forEach in the gesture effect:
non-gesture routes are skipped, gesture routes overwrite the destination
field of the accumulating settings object with a clamped absolute value. -/
def applyGestureRoute (gs : GestureState) (st : SynthSettings) (route : ModRoute) :
    SynthSettings :=
  if !(isGestureSource route.source) then st else
  let finalAmt := gestureSourceValue gs route.source * route.amount * poseMult gs
  match route.destination with
  | .Cutoff => { st with cutoff := max 50 (min 10000 (2000 + finalAmt * 8000)) }
  | .Resonance => { st with resonance := max (1/10) (min 10 (1 + finalAmt * 9)) }
  | .Reverb => { st with reverb := max 0 (min 1 finalAmt) }
  | .Delay => { st with delayFeedback := max 0 (min (9/10) (finalAmt * (9/10))) }
  | _ => st

/-- The whole setSettings updater of the gesture effect: set sustain from
the discrete pincer poses, then fold the route list over the copied
settings object. -/
def applyGestures (gs : GestureState) (prev : SynthSettings) : SynthSettings :=
  let next := { prev with sustain :=
    (gs.leftHand.active && gs.leftHand.isPincer) ||
    (gs.rightHand.active && gs.rightHand.isPincer) }
  prev.modMatrix.foldl (applyGestureRoute gs) next

/-- Destinations that the gesture effect writes into the settings object. -/
def isSettingsDest : ModDestination → Bool
  | .Cutoff | .Resonance | .Reverb | .Delay => true
  | _ => false

/-- Read the settings field a gesture destination writes (0 for
destinations the effect never writes). -/
def settingValueAt : ModDestination → SynthSettings → ℚ
  | .Cutoff, st => st.cutoff
  | .Resonance, st => st.resonance
  | .Reverb, st => st.reverb
  | .Delay, st => st.delayFeedback
  | _, _ => 0

/- Engine operation words, for invariants over operation sequences. -/

inductive EngineOp
  | noteOn (note : String) (settings : SynthSettings) (velocity initialSlide : ℚ)
  | noteOff (note : String) (settings : SynthSettings) (immediate : Bool)
  | task (t : PendingTask)
deriving DecidableEq

def stepOp (s : AudioState) : EngineOp → AudioState
  | .noteOn note settings v sl => playNote s note settings v sl
  | .noteOff note settings imm => stopNote s note settings imm
  | .task t => fireTask s t

def runOps (s : AudioState) (ops : List EngineOp) : AudioState :=
  ops.foldl stepOp s

/-- An operation word is mono when every noteOn in it carries
monoMode = true settings. -/
def EngineOp.isMono : EngineOp → Bool
  | .noteOn _ settings _ _ => settings.monoMode
  | _ => true

/-- Keys of the live-voice map are pairwise distinct (JS Map semantics). -/
def KeysUnique {β : Type} (m : List (String × β)) : Prop :=
  (m.map Prod.fst).Nodup

/- Concrete fixtures. -/

/-- Engine state right after the constructor ran init in a browser
context: empty voice map, bend 0, sustain off, arpeggiator idle. -/
def initialState : AudioState := {
  initialized := true, now := 0, activeOscillators := [],
  currentPitchBend := 0, lastFrequency := none, currentSustain := false,
  activeNotesForArp := [], currentArpIndex := 0, arpTimer := none,
  delayTimeEvents := [], delayFeedbackEvents := [], pendingTasks := [],
  nextVoiceId := 0, noteOnLog := [] }

/-- Engine state when init bailed out (no window: ctx stays null). -/
def uninitState : AudioState := { initialState with initialized := false }

/-- INITIAL_SETTINGS of src/unnamed/part_006 (the fields this model
reads). -/
def sampleSettings : SynthSettings := {
  patchCategory := .Lead, cutoff := 2000, resonance := 1, reverb := 3/10,
  attack := 1/10, release := 1/2, detune := 0, lfoRate := 5,
  delayTime := 3/10, delayFeedback := 2/5, arpRate := 120, octave := 0,
  pitchBend := 0, glide := 1/10, monoMode := false, sustain := false,
  keySlideTarget := .Cutoff,
  modMatrix := [⟨.LFO, .Cutoff, 1/5⟩, ⟨.ENV, .Cutoff, 1/2⟩] }

/-- A voice record as stored for a sounding C4 with a quiet automation
history, used as a concrete test fixture. -/
def sampleVoice : ActiveOscillator := {
  id := 0, osc1Type := .sawtooth, osc2Type := .square,
  osc2Detune := [], osc1Freq := [], osc2Freq := [], gainEvents := [],
  filterFreq := [], filterQ := [], lfoFreq := [], envOffset := [],
  slideOffset := [], modGains := [], baseFreq := tableValue 4 0,
  released := false, stopAt := none }

def oneVoiceState : AudioState :=
  { initialState with activeOscillators := [("C4", sampleVoice)], nextVoiceId := 1 }

def monoSettings : SynthSettings := { sampleSettings with monoMode := true }

def sustainOnSettings : SynthSettings := { sampleSettings with sustain := true }

/-- One live voice with the sustain pedal engaged. -/
def sustainState : AudioState := { oneVoiceState with currentSustain := true }

def heldVoice : ActiveOscillator := { sampleVoice with released := true }

/-- One live voice already marked released, held by the sustain pedal. -/
def heldState : AudioState :=
  { initialState with
    currentSustain := true, nextVoiceId := 1,
    activeOscillators := [("C4", heldVoice)] }

def gestureRouteSettings : SynthSettings :=
  { sampleSettings with modMatrix :=
      [⟨.Gesture_L_H, .Cutoff, 1⟩, ⟨.LFO, .Cutoff, 1⟩, ⟨.Gesture_R_V, .Cutoff, 1⟩] }

def sampleGesture : GestureState := {
  leftHand := { x := 1/2, y := 1/4, active := true, isPincer := false, isClosed := false },
  rightHand := { x := 3/4, y := 1/5, active := false, isPincer := false, isClosed := false },
  distance := 1/3 }

def arpSettings : SynthSettings := { sampleSettings with glide := 0 }

def arpNotes : List String := ["C4", "E4", "G4"]

def arpNoteAt (k : Nat) : String := arpNotes.getD (k % 3) ""

def arpStateAt (n : Nat) : AudioState :=
  runTicks (startArp initialState arpNotes arpSettings) n

/-- The freshly initialised engine with an already-stored pitch-bend b. -/
def bentInit (b : ℚ) : AudioState := { initialState with currentPitchBend := b }

example : resolveNote "C4" 0 = some (tableValue 4 0) := rfl
example : resolveNote "E4" 0 = some (tableValue 4 4) := rfl
example : resolveNote "A4" 0 = some (tableValue 4 9) := rfl
example : resolveNote "H7" 0 = none := rfl
example : resolveNote "C#3" 1 = some (tableValue 4 1) := rfl
example : resolveNote "C0" (-1) = none := rfl
example : jsSortStrings ["E4", "C4", "G4"] = ["C4", "E4", "G4"] := rfl
example : jsSortStrings arpNotes = arpNotes := rfl

/- Association-list (JS Map) lemmas. -/

theorem mapGet_mapUpdate_self {β : Type} (f : β → β) (m : List (String × β)) (k : String) :
    mapGet (mapUpdate f m k) k = (mapGet m k).map f := by
  induction m with
  | nil => rfl
  | cons p rest ih =>
    obtain ⟨k₀, v₀⟩ := p
    by_cases h : k₀ = k
    · simp [mapUpdate, mapGet, h]
    · simp [mapUpdate, mapGet, h, ih]

theorem mapGet_mapUpdate_ne {β : Type} (f : β → β) (m : List (String × β))
    (k k' : String) (h : k' ≠ k) :
    mapGet (mapUpdate f m k) k' = mapGet m k' := by
  induction m with
  | nil => rfl
  | cons p rest ih =>
    obtain ⟨k₀, v₀⟩ := p
    by_cases h₀ : k₀ = k
    · subst h₀
      simp [mapUpdate, mapGet, Ne.symm h]
    · by_cases h₁ : k₀ = k' <;> simp [mapUpdate, mapGet, h₀, h₁, h, ih]

theorem mapGet_mapSet_self {β : Type} (m : List (String × β)) (k : String) (v : β) :
    mapGet (mapSet m k v) k = some v := by
  induction m with
  | nil => simp [mapSet, mapGet]
  | cons p rest ih =>
    obtain ⟨k₀, v₀⟩ := p
    by_cases h : k₀ = k <;> simp [mapSet, mapGet, h, ih]

theorem mapGet_mapSet_ne {β : Type} (m : List (String × β)) (k k' : String) (v : β)
    (h : k' ≠ k) :
    mapGet (mapSet m k v) k' = mapGet m k' := by
  induction m with
  | nil => simp [mapSet, mapGet, Ne.symm h]
  | cons p rest ih =>
    obtain ⟨k₀, v₀⟩ := p
    by_cases h₀ : k₀ = k
    · subst h₀
      simp [mapSet, mapGet, Ne.symm h]
    · by_cases h₁ : k₀ = k' <;> simp [mapSet, mapGet, h₀, h₁, h, ih]

theorem keys_mapUpdate {β : Type} (f : β → β) (m : List (String × β)) (k : String) :
    (mapUpdate f m k).map Prod.fst = m.map Prod.fst := by
  induction m with
  | nil => rfl
  | cons p rest ih =>
    obtain ⟨k₀, v₀⟩ := p
    by_cases h : k₀ = k <;> simp [mapUpdate, h, ih]

theorem length_mapUpdate {β : Type} (f : β → β) (m : List (String × β)) (k : String) :
    (mapUpdate f m k).length = m.length := by
  induction m with
  | nil => rfl
  | cons p rest ih =>
    obtain ⟨k₀, v₀⟩ := p
    by_cases h : k₀ = k <;> simp [mapUpdate, h, ih]

theorem length_mapSet_le {β : Type} (m : List (String × β)) (k : String) (v : β) :
    (mapSet m k v).length ≤ m.length + 1 := by
  induction m with
  | nil => simp [mapSet]
  | cons p rest ih =>
    obtain ⟨k₀, v₀⟩ := p
    by_cases h : k₀ = k <;> simp [mapSet, h]
    omega

theorem mapDelete_sublist {β : Type} (m : List (String × β)) (k : String) :
    (mapDelete m k).Sublist m := by
  induction m with
  | nil => simp [mapDelete]
  | cons p rest ih =>
    obtain ⟨k₀, v₀⟩ := p
    by_cases h : k₀ = k
    · simp [mapDelete, h]
    · simpa [mapDelete, h] using ih.cons₂ (k₀, v₀)

theorem length_mapDelete_le {β : Type} (m : List (String × β)) (k : String) :
    (mapDelete m k).length ≤ m.length :=
  (mapDelete_sublist m k).length_le

theorem keys_mapSet {β : Type} (m : List (String × β)) (k : String) (v : β) :
    (mapSet m k v).map Prod.fst =
      if k ∈ m.map Prod.fst then m.map Prod.fst else m.map Prod.fst ++ [k] := by
  induction m with
  | nil => simp [mapSet]
  | cons p rest ih =>
    obtain ⟨k₀, v₀⟩ := p
    by_cases h : k₀ = k
    · simp [mapSet, h]
    · by_cases hmem : k ∈ rest.map Prod.fst <;>
        simp [mapSet, h, ih, hmem, Ne.symm h]

theorem KeysUnique_mapUpdate {β : Type} (f : β → β) (m : List (String × β)) (k : String)
    (h : KeysUnique m) : KeysUnique (mapUpdate f m k) := by
  unfold KeysUnique at *
  rw [keys_mapUpdate]
  exact h

theorem KeysUnique_mapSet {β : Type} (m : List (String × β)) (k : String) (v : β)
    (h : KeysUnique m) : KeysUnique (mapSet m k v) := by
  unfold KeysUnique at *
  rw [keys_mapSet]
  by_cases hmem : k ∈ m.map Prod.fst
  · simpa [hmem] using h
  · simp [hmem, List.nodup_append, h]

theorem KeysUnique_mapDelete {β : Type} (m : List (String × β)) (k : String)
    (h : KeysUnique m) : KeysUnique (mapDelete m k) :=
  ((mapDelete_sublist m k).map Prod.fst).nodup h

theorem mapGet_eq_some_of_mem {β : Type} {m : List (String × β)} {k : String} {v : β}
    (hu : KeysUnique m) (hmem : (k, v) ∈ m) : mapGet m k = some v := by
  induction m with
  | nil => simp at hmem
  | cons p rest ih =>
    obtain ⟨k₀, v₀⟩ := p
    unfold KeysUnique at hu
    simp only [List.map_cons, List.nodup_cons] at hu
    rcases List.mem_cons.mp hmem with heq | htail
    · obtain ⟨h1, h2⟩ := Prod.mk.injEq .. ▸ heq
      cases heq
      simp [mapGet]
    · have hk : k₀ ≠ k := by
        intro hk
        subst hk
        exact hu.1 (List.mem_map.mpr ⟨(k₀, v), htail, rfl⟩)
      simp [mapGet, hk, ih hu.2 htail]

theorem mapGet_none_iff {β : Type} (m : List (String × β)) (k : String) :
    mapGet m k = none ↔ k ∉ m.map Prod.fst := by
  induction m with
  | nil => simp [mapGet]
  | cons p rest ih =>
    obtain ⟨k₀, v₀⟩ := p
    by_cases h : k₀ = k
    · subst h
      simp [mapGet]
    · rw [show mapGet ((k₀, v₀) :: rest) k = mapGet rest k by simp [mapGet, h], ih]
      simp [Ne.symm h]

/-- C7 (amended): a playNote whose note name misses the frequency table
(after octave shifting) is a silent no-op leaving all engine state
unchanged; before the audio backend is initialized, playNote, stopNote,
updateNoteSlide and updateGlobalParams are silent no-ops leaving state
unchanged, and setPitchBend schedules nothing but still records the bend
scalar (its only state change). -/
theorem claim_C7_error_policy (s : AudioState) (note : String)
    (settings : SynthSettings) (velocity initialSlide slide value : ℚ)
    (immediate : Bool) :
    (resolveNote note settings.octave = none →
      playNote s note settings velocity initialSlide = s) ∧
    (s.initialized = false →
      playNote s note settings velocity initialSlide = s ∧
      stopNote s note settings immediate = s ∧
      updateNoteSlide s note slide = s ∧
      updateGlobalParams s settings = s ∧
      setPitchBend s value = { s with currentPitchBend := value }) := by
  refine ⟨fun h => ?_, fun h => ⟨?_, ?_, ?_, ?_, ?_⟩⟩
  · unfold playNote
    cases hi : s.initialized
    · simp [hi]
    · simp [hi, h]
  · simp [playNote, h]
  · unfold stopNote
    cases hm : mapGet s.activeOscillators note
    · rfl
    · simp [h]
  · unfold updateNoteSlide
    cases hm : mapGet s.activeOscillators note
    · rfl
    · simp [h]
  · simp [updateGlobalParams, h]
  · simp [setPitchBend, h]

/-- C7 as stated is violated: invoked before the audio backend is
initialized, setPitchBend is not a state-preserving no-op — it stores the
new bend scalar. -/
theorem claim_C7_counterexample :
    setPitchBend uninitState 1 ≠ uninitState := by
  intro h
  have hb : (setPitchBend uninitState 1).currentPitchBend =
      uninitState.currentPitchBend := by rw [h]
  simp [setPitchBend, uninitState, initialState] at hb

theorem claim_C7_witness :
    (resolveNote "H9" sampleSettings.octave = none ∧
     playNote initialState "H9" sampleSettings (2/5) (1/2) = initialState) ∧
    (uninitState.initialized = false ∧
     stopNote uninitState "C4" sampleSettings false = uninitState ∧
     setPitchBend uninitState 1 = { uninitState with currentPitchBend := 1 }) :=
  ⟨⟨rfl,
    (claim_C7_error_policy initialState "H9" sampleSettings (2/5) (1/2) 0 0 false).1 rfl⟩,
   ⟨rfl,
    ((claim_C7_error_policy uninitState "C4" sampleSettings (2/5) (1/2) 0 1 false).2 rfl).2.1,
    ((claim_C7_error_policy uninitState "C4" sampleSettings (2/5) (1/2) 0 1 false).2 rfl).2.2.2.2⟩⟩

theorem mapGet_mapPairs {β γ : Type} (g : β → γ) (m : List (String × β)) (k : String) :
    mapGet (m.map fun p => (p.1, g p.2)) k = (mapGet m k).map g := by
  induction m with
  | nil => rfl
  | cons p rest ih =>
    obtain ⟨k₀, v₀⟩ := p
    by_cases h : k₀ = k <;> simp [mapGet, h, ih]

theorem setPitchBend_spec (s : AudioState) (value : ℚ) (h : s.initialized = true) :
    (setPitchBend s value).activeOscillators =
      s.activeOscillators.map (fun p => (p.1, bendUpd value s.now p.2)) ∧
    (setPitchBend s value).currentPitchBend = value ∧
    (setPitchBend s value).now = s.now ∧
    (setPitchBend s value).initialized = true ∧
    (setPitchBend s value).pendingTasks = s.pendingTasks := by
  simp [setPitchBend, h]

theorem getBentFrequency_zero (b : ℚ) : getBentFrequency 0 b = b := by
  simp [getBentFrequency]

/-- C4: for every live voice, setPitchBend retargets both oscillators to
baseFrequency times 2^(bend*2/12) (in the log2 encoding: baseFreq plus
bend*2/12), never mutates the stored baseFrequency, and setPitchBend 0
after any nonzero bend retargets every live voice to exactly its
baseFrequency. -/
theorem claim_C4_pitch_bend (s : AudioState) (value bend : ℚ)
    (note : String) (v : ActiveOscillator)
    (hinit : s.initialized = true)
    (hv : mapGet s.activeOscillators note = some v) :
    (∃ v1, mapGet (setPitchBend s value).activeOscillators note = some v1 ∧
      v1.baseFreq = v.baseFreq ∧
      v1.osc1Freq = v.osc1Freq ++
        [.setTargetAtTime (getBentFrequency value v.baseFreq) s.now (3/100)] ∧
      v1.osc2Freq = v.osc2Freq ++
        [.setTargetAtTime (getBentFrequency value v.baseFreq) s.now (3/100)]) ∧
    getBentFrequency value v.baseFreq = v.baseFreq + value * 2 / 12 ∧
    getBentFrequency 0 v.baseFreq = v.baseFreq ∧
    (∃ v2, mapGet (setPitchBend (setPitchBend s bend) 0).activeOscillators note = some v2 ∧
      v2.baseFreq = v.baseFreq ∧
      finalTarget v2.osc1Freq = some v.baseFreq ∧
      finalTarget v2.osc2Freq = some v.baseFreq) := by
  obtain ⟨hm, _, hnow, hinit1, _⟩ := setPitchBend_spec s bend hinit
  obtain ⟨hm0, _, _, _, _⟩ := setPitchBend_spec (setPitchBend s bend) 0 hinit1
  refine ⟨⟨bendUpd value s.now v, ?_, rfl, rfl, rfl⟩, rfl, getBentFrequency_zero _, ?_⟩
  · rw [(setPitchBend_spec s value hinit).1, mapGet_mapPairs, hv]
    rfl
  · refine ⟨bendUpd 0 s.now (bendUpd bend s.now v), ?_, rfl, ?_, ?_⟩
    · rw [hm0, mapGet_mapPairs, hm, mapGet_mapPairs, hv, hnow]
      rfl
    · show finalTarget ((v.osc1Freq ++ _) ++
        [.setTargetAtTime (getBentFrequency 0 v.baseFreq) s.now (3/100)]) = some v.baseFreq
      rw [finalTarget, List.getLast?_concat]
      simp [eventValue, getBentFrequency_zero]
    · show finalTarget ((v.osc2Freq ++ _) ++
        [.setTargetAtTime (getBentFrequency 0 v.baseFreq) s.now (3/100)]) = some v.baseFreq
      rw [finalTarget, List.getLast?_concat]
      simp [eventValue, getBentFrequency_zero]

theorem claim_C4_witness :
    (oneVoiceState.initialized = true ∧
     mapGet oneVoiceState.activeOscillators "C4" = some sampleVoice) ∧
    ((∃ v1, mapGet (setPitchBend oneVoiceState 1).activeOscillators "C4" = some v1 ∧
      v1.baseFreq = sampleVoice.baseFreq ∧
      v1.osc1Freq = sampleVoice.osc1Freq ++
        [.setTargetAtTime (getBentFrequency 1 sampleVoice.baseFreq) oneVoiceState.now (3/100)] ∧
      v1.osc2Freq = sampleVoice.osc2Freq ++
        [.setTargetAtTime (getBentFrequency 1 sampleVoice.baseFreq) oneVoiceState.now (3/100)]) ∧
    getBentFrequency 1 sampleVoice.baseFreq = sampleVoice.baseFreq + 1 * 2 / 12 ∧
    getBentFrequency 0 sampleVoice.baseFreq = sampleVoice.baseFreq ∧
    (∃ v2, mapGet (setPitchBend (setPitchBend oneVoiceState 1) 0).activeOscillators "C4" =
        some v2 ∧
      v2.baseFreq = sampleVoice.baseFreq ∧
      finalTarget v2.osc1Freq = some sampleVoice.baseFreq ∧
      finalTarget v2.osc2Freq = some sampleVoice.baseFreq)) :=
  ⟨⟨rfl, rfl⟩, claim_C4_pitch_bend oneVoiceState 1 1 "C4" sampleVoice rfl rfl⟩

theorem stopNote_release_spec (s : AudioState) (note : String)
    (settings : SynthSettings) (immediate : Bool) (entry : ActiveOscillator)
    (hv : mapGet s.activeOscillators note = some entry)
    (hinit : s.initialized = true)
    (hrel : s.currentSustain = false ∨ immediate = true) :
    stopNote s note settings immediate =
      { s with
        activeOscillators := (mapUpdate
          (releaseUpd s.now (if immediate then 1/100 else settings.release))
          s.activeOscillators note),
        pendingTasks := s.pendingTasks ++
          [.teardown note entry.id
            (s.now + (if immediate then 1/100 else settings.release) + 1/5)] } := by
  have hcond : (s.currentSustain && !immediate) = false := by
    rcases hrel with h | h <;> simp [h]
  simp [stopNote, hv, hinit, hcond]

theorem stopNote_sustain_spec (s : AudioState) (note : String)
    (settings : SynthSettings) (entry : ActiveOscillator)
    (hv : mapGet s.activeOscillators note = some entry)
    (hinit : s.initialized = true)
    (hsus : s.currentSustain = true) :
    stopNote s note settings false =
      { s with activeOscillators :=
          (mapUpdate (fun v => { v with released := true }) s.activeOscillators note) } := by
  simp [stopNote, hv, hinit, hsus]

/-- C3: when stopNote actually releases a voice (sustain off or immediate),
it appends cancel / hold-current / exponential-ramp-to-0.001 (never zero)
over release seconds (10 ms when immediate) to the gain and envelope
parameters, schedules a teardown task at release-time + 0.2 s that also
removes the map entry, and the fired teardown is a no-op on the map
whenever the entry for that noteKey no longer references this exact voice
instance. -/
theorem claim_C3_release (s : AudioState) (note : String) (settings : SynthSettings)
    (immediate : Bool) (entry : ActiveOscillator)
    (hv : mapGet s.activeOscillators note = some entry)
    (hinit : s.initialized = true)
    (hrel : s.currentSustain = false ∨ immediate = true) :
    (∃ v1, mapGet (stopNote s note settings immediate).activeOscillators note = some v1 ∧
      v1.gainEvents = entry.gainEvents ++
        releaseEvents s.now (if immediate then 1/100 else settings.release) ∧
      v1.envOffset = entry.envOffset ++
        releaseEvents s.now (if immediate then 1/100 else settings.release)) ∧
    releaseEvents s.now (if immediate then 1/100 else settings.release) =
      [.cancelScheduledValues s.now, .setValueToCurrentAtTime s.now,
       .exponentialRampToValueAtTime (1/1000)
         (s.now + (if immediate then 1/100 else settings.release))] ∧
    (1/1000 : ℚ) ≠ 0 ∧
    (stopNote s note settings immediate).pendingTasks =
      s.pendingTasks ++ [.teardown note entry.id
        (s.now + (if immediate then 1/100 else settings.release) + 1/5)] ∧
    (∀ s2, (∀ w, mapGet s2.activeOscillators note = some w → w.id ≠ entry.id) →
      applyTeardown s2 note entry.id = s2) ∧
    (∀ s2 w, mapGet s2.activeOscillators note = some w → w.id = entry.id →
      (applyTeardown s2 note entry.id).activeOscillators =
        mapDelete s2.activeOscillators note) := by
  rw [stopNote_release_spec s note settings immediate entry hv hinit hrel]
  refine ⟨?_, rfl, by norm_num, rfl, ?_, ?_⟩
  · refine ⟨releaseUpd s.now (if immediate then 1/100 else settings.release) entry,
      ?_, rfl, rfl⟩
    show mapGet (mapUpdate _ s.activeOscillators note) note = _
    rw [mapGet_mapUpdate_self, hv]
    rfl
  · intro s2 hw
    unfold applyTeardown
    cases hm : mapGet s2.activeOscillators note with
    | none => rfl
    | some w => simp [hw w hm]
  · intro s2 w hm hid
    unfold applyTeardown
    rw [hm]
    simp [hid]

theorem claim_C3_witness :
    (mapGet oneVoiceState.activeOscillators "C4" = some sampleVoice ∧
     oneVoiceState.initialized = true ∧ oneVoiceState.currentSustain = false) ∧
    ((∃ v1, mapGet (stopNote oneVoiceState "C4" sampleSettings false).activeOscillators "C4" =
        some v1 ∧
      v1.gainEvents = sampleVoice.gainEvents ++
        releaseEvents oneVoiceState.now (if false then 1/100 else sampleSettings.release) ∧
      v1.envOffset = sampleVoice.envOffset ++
        releaseEvents oneVoiceState.now (if false then 1/100 else sampleSettings.release)) ∧
    releaseEvents oneVoiceState.now (if false then 1/100 else sampleSettings.release) =
      [.cancelScheduledValues oneVoiceState.now, .setValueToCurrentAtTime oneVoiceState.now,
       .exponentialRampToValueAtTime (1/1000)
         (oneVoiceState.now + (if false then 1/100 else sampleSettings.release))] ∧
    (1/1000 : ℚ) ≠ 0 ∧
    (stopNote oneVoiceState "C4" sampleSettings false).pendingTasks =
      oneVoiceState.pendingTasks ++ [.teardown "C4" sampleVoice.id
        (oneVoiceState.now + (if false then 1/100 else sampleSettings.release) + 1/5)] ∧
    (∀ s2, (∀ w, mapGet s2.activeOscillators "C4" = some w → w.id ≠ sampleVoice.id) →
      applyTeardown s2 "C4" sampleVoice.id = s2) ∧
    (∀ s2 w, mapGet s2.activeOscillators "C4" = some w → w.id = sampleVoice.id →
      (applyTeardown s2 "C4" sampleVoice.id).activeOscillators =
        mapDelete s2.activeOscillators "C4")) :=
  ⟨⟨rfl, rfl, rfl⟩,
   claim_C3_release oneVoiceState "C4" sampleSettings false sampleVoice rfl rfl (Or.inl rfl)⟩

theorem mapGet_append_of_not_mem {β : Type} (m₁ m₂ : List (String × β)) (k : String)
    (h : k ∉ m₁.map Prod.fst) :
    mapGet (m₁ ++ m₂) k = mapGet m₂ k := by
  induction m₁ with
  | nil => rfl
  | cons p rest ih =>
    obtain ⟨k₀, v₀⟩ := p
    simp only [List.map_cons, List.mem_cons] at h
    push_neg at h
    simp [mapGet, Ne.symm h.1, ih h.2]

theorem mapUpdate_append_cons {β : Type} (f : β → β) (m₁ rest : List (String × β))
    (k : String) (v : β) (h : k ∉ m₁.map Prod.fst) :
    mapUpdate f (m₁ ++ (k, v) :: rest) k = m₁ ++ (k, f v) :: rest := by
  induction m₁ with
  | nil => simp [mapUpdate]
  | cons p m ih =>
    obtain ⟨k₀, v₀⟩ := p
    simp only [List.map_cons, List.mem_cons] at h
    push_neg at h
    simp [mapUpdate, Ne.symm h.1, ih h.2]

/-- Closed form of the sustain-release forEach of updateGlobalParams: with
sustain already cleared, folding stopNote over the entries releases every
voice flagged released and appends one teardown task per released voice,
using the incoming settings release time. -/
theorem sustainFold_spec (settings : SynthSettings) :
    ∀ (m₂ m₁ : List (String × ActiveOscillator)) (st : AudioState),
      st.activeOscillators = m₁ ++ m₂ →
      KeysUnique (m₁ ++ m₂) →
      st.initialized = true →
      st.currentSustain = false →
      m₂.foldl (fun acc p => if p.2.released then stopNote acc p.1 settings false else acc) st =
        { st with
          activeOscillators := m₁ ++ m₂.map (fun p =>
            (p.1, if p.2.released then releaseUpd st.now settings.release p.2 else p.2)),
          pendingTasks := st.pendingTasks ++ m₂.filterMap (fun p =>
            if p.2.released then
              some (.teardown p.1 p.2.id (st.now + settings.release + 1/5))
            else none) } := by
  intro m₂
  induction m₂ with
  | nil =>
    intro m₁ st h1 _ _ _
    simp [← h1]
  | cons p rest ih =>
    intro m₁ st hmap hu hinit hsus
    obtain ⟨k₀, v₀⟩ := p
    have hk₀ : k₀ ∉ m₁.map Prod.fst := by
      unfold KeysUnique at hu
      have := List.Nodup.not_mem ((List.nodup_append.mp (by simpa using hu)).2.1)
      intro hmem
      rcases List.nodup_append.mp (by simpa [List.map_append] using hu) with ⟨_, _, hdisj⟩
      exact hdisj hmem (by simp)
    have hget : mapGet st.activeOscillators k₀ = some v₀ := by
      rw [hmap, mapGet_append_of_not_mem _ _ _ hk₀]
      simp [mapGet]
    by_cases hr : v₀.released
    · have hstop := stopNote_release_spec st k₀ settings false v₀ hget hinit (Or.inl hsus)
      simp only [List.foldl_cons, hr, if_true]
      rw [hstop]
      have hupd : mapUpdate (releaseUpd st.now (if false then 1/100 else settings.release))
          st.activeOscillators k₀ =
          m₁ ++ (k₀, releaseUpd st.now settings.release v₀) :: rest := by
        rw [hmap]
        simpa using mapUpdate_append_cons
          (releaseUpd st.now settings.release) m₁ rest k₀ v₀ hk₀
      have hks : KeysUnique ((m₁ ++ [(k₀, releaseUpd st.now settings.release v₀)]) ++ rest) := by
        unfold KeysUnique at *
        simpa [List.map_append] using hu
      have := ih (m₁ ++ [(k₀, releaseUpd st.now settings.release v₀)])
        { st with
          activeOscillators :=
            (mapUpdate (releaseUpd st.now (if false then 1/100 else settings.release))
              st.activeOscillators k₀),
          pendingTasks := st.pendingTasks ++
            [.teardown k₀ v₀.id
              (st.now + (if false then 1/100 else settings.release) + 1/5)] }
        (by rw [hupd]; simp) hks hinit hsus
      rw [this]
      simp [hr]
    · have hrf : v₀.released = false := by simpa using hr
      rw [List.foldl_cons]
      have hstep : (if (k₀, v₀).2.released = true then stopNote st (k₀, v₀).1 settings else st) =
          st := by simp [hrf]
      rw [hstep, ih (m₁ ++ [(k₀, v₀)]) st (by rw [hmap]; simp)
        (by unfold KeysUnique at *; simpa [List.map_append] using hu) hinit hsus]
      simp [hrf]

theorem mapGet_map_relUpd (now rt : ℚ) (m : List (String × ActiveOscillator)) (k : String) :
    mapGet (m.map fun q => (q.1, if q.2.released then releaseUpd now rt q.2 else q.2)) k =
      (mapGet m k).map (fun w => if w.released then releaseUpd now rt w else w) := by
  induction m with
  | nil => rfl
  | cons p rest ih =>
    obtain ⟨k₀, v₀⟩ := p
    by_cases h : k₀ = k <;> simp [mapGet, h, ih]

theorem setPitchBend_pendingTasks (s : AudioState) (value : ℚ) :
    (setPitchBend s value).pendingTasks = s.pendingTasks := by
  simp only [setPitchBend]
  split <;> rfl


theorem setPitchBend_preserves_fields (X : AudioState) (value : ℚ) (note : String)
    (w : ActiveOscillator) (hw : mapGet X.activeOscillators note = some w) :
    ∃ w2, mapGet (setPitchBend X value).activeOscillators note = some w2 ∧
      w2.gainEvents = w.gainEvents ∧ w2.envOffset = w.envOffset ∧
      w2.released = w.released ∧ w2.filterFreq = w.filterFreq ∧ w2.lfoFreq = w.lfoFreq := by
  by_cases hi : X.initialized = true
  · obtain ⟨hm, _, _, _, _⟩ := setPitchBend_spec X value hi
    refine ⟨bendUpd value X.now w, ?_, rfl, rfl, rfl, rfl, rfl⟩
    rw [hm, mapGet_mapPairs, hw]
    rfl
  · have hi2 : X.initialized = false := by simpa using hi
    have heq : setPitchBend X value = { X with currentPitchBend := value } := by
      simp [setPitchBend, hi2]
    rw [heq]
    exact ⟨w, hw, rfl, rfl, rfl, rfl, rfl⟩

/-- globalTail broadcasts the filter cutoff and LFO-rate retargets to a
live voice and leaves its gain and envelope automation, released flag,
and the pending-task queue untouched (whether or not the trailing
pitch-bend resynchronisation fires). -/
theorem globalTail_preserves (s1 : AudioState) (settings : SynthSettings) (now : ℚ)
    (note : String) (w : ActiveOscillator)
    (hw : mapGet s1.activeOscillators note = some w) :
    (globalTail s1 settings now).pendingTasks = s1.pendingTasks ∧
    ∃ w2, mapGet (globalTail s1 settings now).activeOscillators note = some w2 ∧
      w2.gainEvents = w.gainEvents ∧ w2.envOffset = w.envOffset ∧
      w2.released = w.released ∧
      w2.filterFreq = w.filterFreq ++ [.setTargetAtTime settings.cutoff now (1/20)] ∧
      w2.lfoFreq = w.lfoFreq ++ [.setTargetAtTime settings.lfoRate now (1/20)] := by
  have hw3 : mapGet (s1.activeOscillators.map fun (p : String × ActiveOscillator) =>
      (p.1, broadcastParams settings now p.2)) note =
      some (broadcastParams settings now w) := by
    rw [mapGet_mapPairs, hw]
    rfl
  simp only [globalTail]
  split
  · exact ⟨(setPitchBend_pendingTasks _ _).trans rfl,
      setPitchBend_preserves_fields _ settings.pitchBend note
        (broadcastParams settings now w) hw3⟩
  · exact ⟨rfl, broadcastParams settings now w, hw3, rfl, rfl, rfl, rfl, rfl⟩

theorem updateGlobalParams_drop_eq (s : AudioState) (settings : SynthSettings)
    (hinit : s.initialized = true) (hsus : s.currentSustain = true)
    (hset : settings.sustain = false) (hu : KeysUnique s.activeOscillators) :
    updateGlobalParams s settings = globalTail
      { s with
        currentSustain := false,
        activeOscillators := s.activeOscillators.map (fun p =>
          (p.1, if p.2.released then releaseUpd s.now settings.release p.2 else p.2)),
        pendingTasks := s.pendingTasks ++ s.activeOscillators.filterMap (fun p =>
          if p.2.released then
            some (.teardown p.1 p.2.id (s.now + settings.release + 1/5))
          else none) }
      settings s.now := by
  have hcond : (s.currentSustain && !settings.sustain) = true := by simp [hsus, hset]
  have hfold := sustainFold_spec settings s.activeOscillators []
    { s with currentSustain := false } rfl (by simpa using hu) hinit rfl
  unfold updateGlobalParams
  rw [if_neg (by simp [hinit]), if_pos hcond]
  show globalTail _ settings s.now = _
  rw [hfold]
  simp

theorem updateGlobalParams_noDrop_eq (s : AudioState) (settings : SynthSettings)
    (hinit : s.initialized = true)
    (hcond : (s.currentSustain && !settings.sustain) = false) :
    updateGlobalParams s settings = globalTail s settings s.now := by
  unfold updateGlobalParams
  rw [if_neg (by simp [hinit]), if_neg (by simp [hcond])]

/-- C2: with sustain engaged, a non-immediate stopNote only sets the
voice's released flag (no ramps scheduled, no teardown queued, the entry
stays in the map); every voice flagged released begins its release only in
the updateGlobalParams call that observes sustain going off, with the
newly arrived settings release time and a teardown task; and while held,
a voice still receives the filter/LFO broadcast (it stays modulatable). -/
theorem claim_C2_sustain_hold (s : AudioState) (note : String)
    (settings : SynthSettings) (v : ActiveOscillator) :
    (mapGet s.activeOscillators note = some v → s.initialized = true →
      s.currentSustain = true →
      stopNote s note settings false =
        { s with activeOscillators :=
            (mapUpdate (fun w => { w with released := true }) s.activeOscillators note) }) ∧
    (s.initialized = true → s.currentSustain = true → settings.sustain = false →
      KeysUnique s.activeOscillators →
      ∀ p ∈ s.activeOscillators, p.2.released = true →
        PendingTask.teardown p.1 p.2.id (s.now + settings.release + 1/5) ∈
          (updateGlobalParams s settings).pendingTasks ∧
        ∃ w, mapGet (updateGlobalParams s settings).activeOscillators p.1 = some w ∧
          w.gainEvents = p.2.gainEvents ++ releaseEvents s.now settings.release ∧
          w.envOffset = p.2.envOffset ++ releaseEvents s.now settings.release) ∧
    (s.initialized = true → s.currentSustain = true → settings.sustain = true →
      mapGet s.activeOscillators note = some v →
      ∃ w, mapGet (updateGlobalParams s settings).activeOscillators note = some w ∧
        w.released = v.released ∧ w.gainEvents = v.gainEvents ∧
        w.filterFreq = v.filterFreq ++ [.setTargetAtTime settings.cutoff s.now (1/20)] ∧
        w.lfoFreq = v.lfoFreq ++ [.setTargetAtTime settings.lfoRate s.now (1/20)]) := by
  refine ⟨fun hv hinit hsus => stopNote_sustain_spec s note settings v hv hinit hsus,
    fun hinit hsus hset hu p hp hr => ?_, fun hinit hsus hset hv => ?_⟩
  · rw [updateGlobalParams_drop_eq s settings hinit hsus hset hu]
    have hwX : mapGet (s.activeOscillators.map (fun q =>
        (q.1, if q.2.released then releaseUpd s.now settings.release q.2 else q.2))) p.1 =
        some (releaseUpd s.now settings.release p.2) := by
      rw [mapGet_map_relUpd, mapGet_eq_some_of_mem hu hp]
      simp [hr]
    obtain ⟨htasks, w2, h1, h2, h3, _, _, _⟩ :=
      globalTail_preserves
        { s with
          currentSustain := false,
          activeOscillators := s.activeOscillators.map (fun q =>
            (q.1, if q.2.released then releaseUpd s.now settings.release q.2 else q.2)),
          pendingTasks := s.pendingTasks ++ s.activeOscillators.filterMap (fun q =>
            if q.2.released then
              some (.teardown q.1 q.2.id (s.now + settings.release + 1/5))
            else none) }
        settings s.now p.1 (releaseUpd s.now settings.release p.2) hwX
    refine ⟨?_, w2, h1, h2.trans rfl, h3.trans rfl⟩
    rw [htasks]
    exact List.mem_append_right _ (List.mem_filterMap.mpr ⟨p, hp, by simp [hr]⟩)
  · rw [updateGlobalParams_noDrop_eq s settings hinit (by simp [hset])]
    obtain ⟨_, w2, h1, h2, _, h4, h5, h6⟩ :=
      globalTail_preserves s settings s.now note v hv
    exact ⟨w2, h1, h4, h2, h5, h6⟩

theorem claim_C2_witness :
    (mapGet sustainState.activeOscillators "C4" = some sampleVoice ∧
     sustainState.initialized = true ∧ sustainState.currentSustain = true ∧
     stopNote sustainState "C4" sampleSettings false =
       { sustainState with activeOscillators :=
           (mapUpdate (fun w => { w with released := true })
             sustainState.activeOscillators "C4") }) ∧
    (heldState.currentSustain = true ∧ sampleSettings.sustain = false ∧
     ("C4", heldVoice) ∈ heldState.activeOscillators ∧ heldVoice.released = true ∧
     PendingTask.teardown "C4" heldVoice.id
        (heldState.now + sampleSettings.release + 1/5) ∈
       (updateGlobalParams heldState sampleSettings).pendingTasks ∧
     ∃ w, mapGet (updateGlobalParams heldState sampleSettings).activeOscillators "C4" =
         some w ∧
       w.gainEvents = heldVoice.gainEvents ++
         releaseEvents heldState.now sampleSettings.release ∧
       w.envOffset = heldVoice.envOffset ++
         releaseEvents heldState.now sampleSettings.release) ∧
    (sustainOnSettings.sustain = true ∧
     ∃ w, mapGet (updateGlobalParams sustainState sustainOnSettings).activeOscillators
         "C4" = some w ∧
       w.released = sampleVoice.released ∧ w.gainEvents = sampleVoice.gainEvents ∧
       w.filterFreq = sampleVoice.filterFreq ++
         [.setTargetAtTime sustainOnSettings.cutoff sustainState.now (1/20)] ∧
       w.lfoFreq = sampleVoice.lfoFreq ++
         [.setTargetAtTime sustainOnSettings.lfoRate sustainState.now (1/20)]) := by
  have hmem : ("C4", heldVoice) ∈ heldState.activeOscillators :=
    List.mem_singleton.mpr rfl
  refine ⟨⟨rfl, rfl, rfl,
      (claim_C2_sustain_hold sustainState "C4" sampleSettings sampleVoice).1 rfl rfl rfl⟩,
    ⟨rfl, rfl, hmem, rfl, ?_⟩,
    ⟨rfl, (claim_C2_sustain_hold sustainState "C4" sustainOnSettings sampleVoice).2.2
      rfl rfl rfl rfl⟩⟩
  exact (claim_C2_sustain_hold heldState "C4" sampleSettings heldVoice).2.1
    rfl rfl rfl (by unfold KeysUnique; decide) ("C4", heldVoice) hmem rfl

/-- C5: at voice creation every LFO/ENV-sourced route with a scalable
destination is wired through a gain node of value amount times the
destination scale (Cutoff 6000, Resonance 15, Pitch 800, Gain 0.5) into
the destination parameter, and gesture-sourced routes connect no source
signal into any gain node of the voice graph. -/
theorem claim_C5_mod_wiring (s : AudioState) (note : String) (settings : SynthSettings)
    (velocity initialSlide baseFreq : ℚ)
    (hinit : s.initialized = true)
    (hres : resolveNote note settings.octave = some baseFreq)
    (hpoly : settings.monoMode = false ∨ s.activeOscillators = []) :
    mapGet (playNote s note settings velocity initialSlide).activeOscillators note =
      some (allocVoice s settings velocity initialSlide baseFreq) ∧
    (allocVoice s settings velocity initialSlide baseFreq).modGains =
      settings.modMatrix.filterMap connOfRoute ++ [keySlideConn settings.keySlideTarget] ∧
    (∀ route ∈ settings.modMatrix, ∀ sc tg,
      scaleAndTarget route.destination = some (sc, tg) →
      ModGainNode.mk (signalOf route.source) tg (route.amount * sc) ∈
        (allocVoice s settings velocity initialSlide baseFreq).modGains) ∧
    (scaleAndTarget .Cutoff = some (6000, .filterFrequency) ∧
     scaleAndTarget .Resonance = some (15, .filterQ) ∧
     scaleAndTarget .Pitch = some (800, .osc1Frequency) ∧
     scaleAndTarget .Gain = some (1/2, .noteGainGain)) ∧
    (signalOf .LFO = some .lfo ∧ signalOf .ENV = some .env) ∧
    (∀ route : ModRoute, isGestureSource route.source = true →
      ∀ c, connOfRoute route = some c → c.input = none) := by
  have hmem : ∀ route ∈ settings.modMatrix, ∀ (sc : ℚ) (tg : TargetParam),
      scaleAndTarget route.destination = some (sc, tg) →
      ModGainNode.mk (signalOf route.source) tg (route.amount * sc) ∈
        settings.modMatrix.filterMap connOfRoute ++ [keySlideConn settings.keySlideTarget] := by
    intro route hr sc tg hst
    refine List.mem_append_left _ (List.mem_filterMap.mpr ⟨route, hr, ?_⟩)
    simp [connOfRoute, hst]
  have hgest : ∀ route : ModRoute, isGestureSource route.source = true →
      ∀ c, connOfRoute route = some c → c.input = none := by
    intro route hg c hc
    have hs : signalOf route.source = none := by
      cases hsrc : route.source <;> rw [hsrc] at hg <;>
        first
          | rfl
          | simp [isGestureSource] at hg
    unfold connOfRoute at hc
    cases hst : scaleAndTarget route.destination with
    | none => rw [hst] at hc; simp at hc
    | some st =>
      rw [hst] at hc
      simp only [Option.some.injEq] at hc
      rw [← hc]
      exact hs
  have hlook : mapGet (playNote s note settings velocity initialSlide).activeOscillators
      note = some (allocVoice s settings velocity initialSlide baseFreq) := by
    rcases hpoly with hmono | hempty
    · cases hao : s.activeOscillators with
      | nil =>
        simp only [playNote, hinit, Bool.true_eq_false, if_false, hres, hmono, hao]
        rw [mapGet_mapSet_self]
      | cons p rest =>
        simp only [playNote, hinit, Bool.true_eq_false, if_false, hres, hmono, hao]
        rw [mapGet_mapSet_self]
    · cases hm2 : settings.monoMode <;>
        simp only [playNote, hinit, Bool.true_eq_false, if_false, hres, hempty, hm2] <;>
        rw [mapGet_mapSet_self]
  exact ⟨hlook, rfl, hmem, ⟨rfl, rfl, rfl, rfl⟩, ⟨rfl, rfl⟩, hgest⟩

theorem claim_C5_witness :
    (initialState.initialized = true ∧
     resolveNote "C4" gestureRouteSettings.octave = some (tableValue 4 0) ∧
     gestureRouteSettings.monoMode = false) ∧
    (mapGet (playNote initialState "C4" gestureRouteSettings (2/5) (1/2)).activeOscillators
        "C4" = some (allocVoice initialState gestureRouteSettings (2/5) (1/2)
          (tableValue 4 0)) ∧
    (allocVoice initialState gestureRouteSettings (2/5) (1/2) (tableValue 4 0)).modGains =
      gestureRouteSettings.modMatrix.filterMap connOfRoute ++
        [keySlideConn gestureRouteSettings.keySlideTarget] ∧
    (∀ route ∈ gestureRouteSettings.modMatrix, ∀ sc tg,
      scaleAndTarget route.destination = some (sc, tg) →
      ModGainNode.mk (signalOf route.source) tg (route.amount * sc) ∈
        (allocVoice initialState gestureRouteSettings (2/5) (1/2)
          (tableValue 4 0)).modGains) ∧
    (scaleAndTarget .Cutoff = some (6000, .filterFrequency) ∧
     scaleAndTarget .Resonance = some (15, .filterQ) ∧
     scaleAndTarget .Pitch = some (800, .osc1Frequency) ∧
     scaleAndTarget .Gain = some (1/2, .noteGainGain)) ∧
    (signalOf .LFO = some .lfo ∧ signalOf .ENV = some .env) ∧
    (∀ route : ModRoute, isGestureSource route.source = true →
      ∀ c, connOfRoute route = some c → c.input = none)) :=
  ⟨⟨rfl, rfl, rfl⟩,
   claim_C5_mod_wiring initialState "C4" gestureRouteSettings (2/5) (1/2) (tableValue 4 0)
     rfl rfl (Or.inl rfl)⟩

theorem updateNoteSlide_spec (s : AudioState) (note : String) (slide : ℚ)
    (v : ActiveOscillator) (hv : mapGet s.activeOscillators note = some v)
    (hinit : s.initialized = true) :
    updateNoteSlide s note slide =
      { s with activeOscillators := (mapUpdate (fun w =>
          { w with slideOffset := w.slideOffset ++ [.setTargetAtTime slide s.now (1/100)] })
          s.activeOscillators note) } := by
  simp [updateNoteSlide, hv, hinit]

theorem playNote_mono_eq (s : AudioState) (note existingNote : String)
    (entry : ActiveOscillator) (rest : List (String × ActiveOscillator))
    (settings : SynthSettings) (velocity initialSlide baseFreq : ℚ)
    (hinit : s.initialized = true)
    (hmono : settings.monoMode = true)
    (hmap : s.activeOscillators = (existingNote, entry) :: rest)
    (hres : resolveNote note settings.octave = some baseFreq) :
    playNote s note settings velocity initialSlide =
      updateNoteSlide
        { s with
          activeOscillators :=
            (if existingNote = note then
              (existingNote, retargetVoice s settings baseFreq entry) :: rest
            else mapSet (mapDelete ((existingNote, retargetVoice s settings baseFreq entry)
              :: rest) existingNote) note (retargetVoice s settings baseFreq entry)),
          lastFrequency := some (getBentFrequency s.currentPitchBend baseFreq),
          noteOnLog := s.noteOnLog ++ [(note, velocity, s.now)] }
        note initialSlide := by
  simp only [playNote, hinit, Bool.true_eq_false, if_false, hres, hmono, hmap]

theorem playNote_alloc_eq (s : AudioState) (note : String) (settings : SynthSettings)
    (velocity initialSlide baseFreq : ℚ)
    (hinit : s.initialized = true)
    (hres : resolveNote note settings.octave = some baseFreq)
    (hpoly : settings.monoMode = false ∨ s.activeOscillators = []) :
    playNote s note settings velocity initialSlide =
      { s with
        activeOscillators := (mapSet s.activeOscillators note
          (allocVoice s settings velocity initialSlide baseFreq)),
        lastFrequency := some (getBentFrequency s.currentPitchBend baseFreq),
        nextVoiceId := s.nextVoiceId + 1,
        noteOnLog := s.noteOnLog ++ [(note, velocity, s.now)] } := by
  rcases hpoly with hmono | hempty
  · cases hao : s.activeOscillators with
    | nil => simp only [playNote, hinit, Bool.true_eq_false, if_false, hres, hmono, hao]
    | cons p rest => simp only [playNote, hinit, Bool.true_eq_false, if_false, hres, hmono, hao]
  · cases hm2 : settings.monoMode <;>
      simp only [playNote, hinit, Bool.true_eq_false, if_false, hres, hempty, hm2]

theorem finalTarget_retarget (l : List AutomationEvent) (t u x : ℚ)
    (c : Prop) [Decidable c] :
    finalTarget (l ++ [.cancelScheduledValues t] ++
      (if c then [.exponentialRampToValueAtTime x u] else [.setValueAtTime x t])) =
      some x := by
  split <;>
  · rw [finalTarget, List.getLast?_concat]
    rfl

theorem length_pos_of_mapGet {β : Type} {m : List (String × β)} {k : String} {v : β}
    (h : mapGet m k = some v) : 1 ≤ m.length := by
  cases m with
  | nil => simp [mapGet] at h
  | cons p rest => simp

/-- Mono retarget behaviour of playNote with a live voice: no allocation,
no growth of the voice map, frequency automation cancelled and retargeted
on the surviving voice object, released cleared, key renamed. -/
theorem playNote_mono_spec (s : AudioState) (note existingNote : String)
    (entry : ActiveOscillator) (rest : List (String × ActiveOscillator))
    (settings : SynthSettings) (velocity initialSlide baseFreq : ℚ)
    (hinit : s.initialized = true)
    (hmono : settings.monoMode = true)
    (hmap : s.activeOscillators = (existingNote, entry) :: rest)
    (hres : resolveNote note settings.octave = some baseFreq)
    (hu : KeysUnique s.activeOscillators) :
    (playNote s note settings velocity initialSlide).nextVoiceId = s.nextVoiceId ∧
    (playNote s note settings velocity initialSlide).activeOscillators.length ≤
      s.activeOscillators.length ∧
    (∃ v1, mapGet (playNote s note settings velocity initialSlide).activeOscillators note =
        some v1 ∧
      v1.id = entry.id ∧ v1.released = false ∧ v1.baseFreq = baseFreq ∧
      v1.osc1Freq = entry.osc1Freq ++ [.cancelScheduledValues s.now] ++
        (if 0 < settings.glide then
          [.exponentialRampToValueAtTime (getBentFrequency s.currentPitchBend baseFreq)
            (s.now + settings.glide)]
         else [.setValueAtTime (getBentFrequency s.currentPitchBend baseFreq) s.now]) ∧
      v1.osc2Freq = entry.osc2Freq ++ [.cancelScheduledValues s.now] ++
        (if 0 < settings.glide then
          [.exponentialRampToValueAtTime (getBentFrequency s.currentPitchBend baseFreq)
            (s.now + settings.glide)]
         else [.setValueAtTime (getBentFrequency s.currentPitchBend baseFreq) s.now]) ∧
      v1.slideOffset = entry.slideOffset ++ [.setTargetAtTime initialSlide s.now (1/100)]) ∧
    (existingNote ≠ note →
      mapGet (playNote s note settings velocity initialSlide).activeOscillators
        existingNote = none) := by
  have h2 := playNote_mono_eq s note existingNote entry rest settings velocity
    initialSlide baseFreq hinit hmono hmap hres
  by_cases hk : existingNote = note
  · subst hk
    rw [h2, if_pos rfl]
    have hv : mapGet ((existingNote, retargetVoice s settings baseFreq entry) :: rest)
        existingNote = some (retargetVoice s settings baseFreq entry) := by
      simp [mapGet]
    rw [updateNoteSlide_spec
      { s with
        activeOscillators := (existingNote, retargetVoice s settings baseFreq entry) :: rest,
        lastFrequency := some (getBentFrequency s.currentPitchBend baseFreq),
        noteOnLog := s.noteOnLog ++ [(existingNote, velocity, s.now)] }
      existingNote initialSlide (retargetVoice s settings baseFreq entry) hv hinit]
    refine ⟨rfl, ?_, ⟨{ retargetVoice s settings baseFreq entry with
        slideOffset := (retargetVoice s settings baseFreq entry).slideOffset ++
          [.setTargetAtTime initialSlide s.now (1/100)] },
      ?_, rfl, rfl, rfl, rfl, rfl, rfl⟩, fun hne => absurd rfl hne⟩
    · show (mapUpdate _ ((existingNote, retargetVoice s settings baseFreq entry) :: rest)
        existingNote).length ≤ s.activeOscillators.length
      rw [length_mapUpdate, hmap]
      simp
    · show mapGet (mapUpdate _ ((existingNote, retargetVoice s settings baseFreq entry)
        :: rest) existingNote) existingNote = _
      rw [mapGet_mapUpdate_self, hv]
      rfl
  · rw [h2, if_neg hk]
    have hdel : mapDelete ((existingNote, retargetVoice s settings baseFreq entry) :: rest)
        existingNote = rest := by
      simp [mapDelete]
    rw [hdel]
    have hv : mapGet (mapSet rest note (retargetVoice s settings baseFreq entry)) note =
        some (retargetVoice s settings baseFreq entry) := mapGet_mapSet_self _ _ _
    rw [updateNoteSlide_spec
      { s with
        activeOscillators := (mapSet rest note (retargetVoice s settings baseFreq entry)),
        lastFrequency := some (getBentFrequency s.currentPitchBend baseFreq),
        noteOnLog := s.noteOnLog ++ [(note, velocity, s.now)] }
      note initialSlide (retargetVoice s settings baseFreq entry) hv hinit]
    have hxu : existingNote ∉ rest.map Prod.fst := by
      rw [hmap] at hu
      unfold KeysUnique at hu
      simp only [List.map_cons, List.nodup_cons] at hu
      exact hu.1
    refine ⟨rfl, ?_, ⟨{ retargetVoice s settings baseFreq entry with
        slideOffset := (retargetVoice s settings baseFreq entry).slideOffset ++
          [.setTargetAtTime initialSlide s.now (1/100)] },
      ?_, rfl, rfl, rfl, rfl, rfl, rfl⟩, fun _ => ?_⟩
    · show (mapUpdate _ (mapSet rest note (retargetVoice s settings baseFreq entry))
        note).length ≤ s.activeOscillators.length
      rw [length_mapUpdate, hmap]
      simpa using length_mapSet_le rest note _
    · show mapGet (mapUpdate _ (mapSet rest note (retargetVoice s settings baseFreq entry))
        note) note = _
      rw [mapGet_mapUpdate_self, hv]
      rfl
    · show mapGet (mapUpdate _ (mapSet rest note (retargetVoice s settings baseFreq entry))
        note) existingNote = none
      rw [mapGet_mapUpdate_ne _ _ _ _ hk, mapGet_mapSet_ne _ _ _ _ hk]
      exact (mapGet_none_iff rest existingNote).mpr hxu

/-- C1: in mono mode with a live voice, playNote retargets instead of
allocating: the voice counter does not advance, the voice count does not
grow, the surviving entry is the same voice object (same id) with pending
frequency automation cancelled and both oscillators ramped (exponentially
over glide seconds, or set instantly at glide 0) to the bent target of the
new note, released cleared, and the key renamed when the note differs;
consequently noteOn C4 then noteOn E4 on a fresh mono engine keeps exactly
one live voice whose final frequency target is E4 bent by the current
pitch bend. -/
theorem claim_C1_mono_retarget (s : AudioState) (note existingNote : String)
    (entry : ActiveOscillator) (rest : List (String × ActiveOscillator))
    (settings : SynthSettings) (velocity initialSlide baseFreq b : ℚ)
    (hinit : s.initialized = true)
    (hmono : settings.monoMode = true)
    (hmap : s.activeOscillators = (existingNote, entry) :: rest)
    (hres : resolveNote note settings.octave = some baseFreq)
    (hu : KeysUnique s.activeOscillators) :
    ((playNote s note settings velocity initialSlide).nextVoiceId = s.nextVoiceId ∧
     (playNote s note settings velocity initialSlide).activeOscillators.length ≤
       s.activeOscillators.length ∧
     (∃ v1, mapGet (playNote s note settings velocity initialSlide).activeOscillators note =
         some v1 ∧
       v1.id = entry.id ∧ v1.released = false ∧ v1.baseFreq = baseFreq ∧
       v1.osc1Freq = entry.osc1Freq ++ [.cancelScheduledValues s.now] ++
         (if 0 < settings.glide then
           [.exponentialRampToValueAtTime (getBentFrequency s.currentPitchBend baseFreq)
             (s.now + settings.glide)]
          else [.setValueAtTime (getBentFrequency s.currentPitchBend baseFreq) s.now]) ∧
       v1.osc2Freq = entry.osc2Freq ++ [.cancelScheduledValues s.now] ++
         (if 0 < settings.glide then
           [.exponentialRampToValueAtTime (getBentFrequency s.currentPitchBend baseFreq)
             (s.now + settings.glide)]
          else [.setValueAtTime (getBentFrequency s.currentPitchBend baseFreq) s.now]) ∧
       v1.slideOffset = entry.slideOffset ++ [.setTargetAtTime initialSlide s.now (1/100)]) ∧
     (existingNote ≠ note →
       mapGet (playNote s note settings velocity initialSlide).activeOscillators
         existingNote = none)) ∧
    (∀ st2 : SynthSettings, st2.monoMode = true → st2.octave = 0 →
      (playNote (bentInit b) "C4" st2 velocity initialSlide).activeOscillators.length = 1 ∧
      (playNote (playNote (bentInit b) "C4" st2 velocity initialSlide) "E4" st2 velocity
        initialSlide).activeOscillators.length = 1 ∧
      ∃ v2, mapGet (playNote (playNote (bentInit b) "C4" st2 velocity initialSlide) "E4"
          st2 velocity initialSlide).activeOscillators "E4" = some v2 ∧
        v2.baseFreq = tableValue 4 4 ∧
        finalTarget v2.osc1Freq = some (getBentFrequency b (tableValue 4 4)) ∧
        finalTarget v2.osc2Freq = some (getBentFrequency b (tableValue 4 4))) := by
  refine ⟨playNote_mono_spec s note existingNote entry rest settings velocity initialSlide
    baseFreq hinit hmono hmap hres hu, ?_⟩
  intro st2 hm ho
  have hresC : resolveNote "C4" st2.octave = some (tableValue 4 0) := by
    rw [ho]; exact rfl
  have hresE : resolveNote "E4" st2.octave = some (tableValue 4 4) := by
    rw [ho]; exact rfl
  have h1 := playNote_alloc_eq (bentInit b) "C4" st2 velocity initialSlide
    (tableValue 4 0) rfl hresC (Or.inr rfl)
  rw [h1]
  obtain ⟨hnv, hlen, ⟨v1, hget, hid, hrel, hbase, hosc1, hosc2, hslide⟩, hold⟩ :=
    playNote_mono_spec
      { bentInit b with
        activeOscillators := (mapSet (bentInit b).activeOscillators "C4"
          (allocVoice (bentInit b) st2 velocity initialSlide (tableValue 4 0))),
        lastFrequency := some (getBentFrequency (bentInit b).currentPitchBend
          (tableValue 4 0)),
        nextVoiceId := (bentInit b).nextVoiceId + 1,
        noteOnLog := (bentInit b).noteOnLog ++ [("C4", velocity, (bentInit b).now)] }
      "E4" "C4" (allocVoice (bentInit b) st2 velocity initialSlide (tableValue 4 0)) []
      st2 velocity initialSlide (tableValue 4 4) rfl hm rfl hresE
      (by unfold KeysUnique; show List.Nodup ["C4"]; decide)
  refine ⟨rfl, ?_, v1, hget, hbase, ?_, ?_⟩
  · exact Nat.le_antisymm (hlen.trans (Nat.le_of_eq rfl)) (length_pos_of_mapGet hget)
  · rw [hosc1]
    exact finalTarget_retarget _ _ _ _ _
  · rw [hosc2]
    exact finalTarget_retarget _ _ _ _ _

theorem claim_C1_witness :
    (oneVoiceState.initialized = true ∧ monoSettings.monoMode = true ∧
     oneVoiceState.activeOscillators = ("C4", sampleVoice) :: [] ∧
     resolveNote "E4" monoSettings.octave = some (tableValue 4 4)) ∧
    ((playNote oneVoiceState "E4" monoSettings (2/5) (1/2)).nextVoiceId =
       oneVoiceState.nextVoiceId ∧
     (playNote oneVoiceState "E4" monoSettings (2/5) (1/2)).activeOscillators.length ≤
       oneVoiceState.activeOscillators.length ∧
     (∃ v1, mapGet (playNote oneVoiceState "E4" monoSettings (2/5)
         (1/2)).activeOscillators "E4" = some v1 ∧
       v1.id = sampleVoice.id ∧ v1.released = false ∧ v1.baseFreq = tableValue 4 4 ∧
       v1.osc1Freq = sampleVoice.osc1Freq ++
         [.cancelScheduledValues oneVoiceState.now] ++
         (if 0 < monoSettings.glide then
           [.exponentialRampToValueAtTime
             (getBentFrequency oneVoiceState.currentPitchBend (tableValue 4 4))
             (oneVoiceState.now + monoSettings.glide)]
          else [.setValueAtTime
            (getBentFrequency oneVoiceState.currentPitchBend (tableValue 4 4))
            oneVoiceState.now]) ∧
       v1.osc2Freq = sampleVoice.osc2Freq ++
         [.cancelScheduledValues oneVoiceState.now] ++
         (if 0 < monoSettings.glide then
           [.exponentialRampToValueAtTime
             (getBentFrequency oneVoiceState.currentPitchBend (tableValue 4 4))
             (oneVoiceState.now + monoSettings.glide)]
          else [.setValueAtTime
            (getBentFrequency oneVoiceState.currentPitchBend (tableValue 4 4))
            oneVoiceState.now]) ∧
       v1.slideOffset = sampleVoice.slideOffset ++
         [.setTargetAtTime (1/2) oneVoiceState.now (1/100)]) ∧
     (("C4" : String) ≠ "E4" →
       mapGet (playNote oneVoiceState "E4" monoSettings (2/5) (1/2)).activeOscillators
         "C4" = none)) ∧
    ((playNote (bentInit 1) "C4" monoSettings (2/5) (1/2)).activeOscillators.length = 1 ∧
     (playNote (playNote (bentInit 1) "C4" monoSettings (2/5) (1/2)) "E4" monoSettings (2/5)
       (1/2)).activeOscillators.length = 1 ∧
     ∃ v2, mapGet (playNote (playNote (bentInit 1) "C4" monoSettings (2/5) (1/2)) "E4"
         monoSettings (2/5) (1/2)).activeOscillators "E4" = some v2 ∧
       v2.baseFreq = tableValue 4 4 ∧
       finalTarget v2.osc1Freq = some (getBentFrequency 1 (tableValue 4 4)) ∧
       finalTarget v2.osc2Freq = some (getBentFrequency 1 (tableValue 4 4))) :=
  ⟨⟨rfl, rfl, rfl, rfl⟩,
   (claim_C1_mono_retarget oneVoiceState "E4" "C4" sampleVoice [] monoSettings (2/5) (1/2)
     (tableValue 4 4) 1 rfl rfl rfl rfl (by unfold KeysUnique; decide)).1,
   (claim_C1_mono_retarget oneVoiceState "E4" "C4" sampleVoice [] monoSettings (2/5) (1/2)
     (tableValue 4 4) 1 rfl rfl rfl rfl (by unfold KeysUnique; decide)).2
     monoSettings rfl rfl⟩

theorem updateNoteSlide_frame (s : AudioState) (note : String) (slide : ℚ) :
    (updateNoteSlide s note slide).now = s.now ∧
    (updateNoteSlide s note slide).activeNotesForArp = s.activeNotesForArp ∧
    (updateNoteSlide s note slide).currentArpIndex = s.currentArpIndex ∧
    (updateNoteSlide s note slide).arpTimer = s.arpTimer ∧
    (updateNoteSlide s note slide).pendingTasks = s.pendingTasks ∧
    (updateNoteSlide s note slide).initialized = s.initialized ∧
    (updateNoteSlide s note slide).noteOnLog = s.noteOnLog ∧
    (updateNoteSlide s note slide).nextVoiceId = s.nextVoiceId := by
  cases hget : mapGet s.activeOscillators note with
  | none => simp [updateNoteSlide, hget]
  | some v => cases hin : s.initialized <;> simp [updateNoteSlide, hget, hin]

/-- playNote on a resolving note in an initialised engine never touches the
clock, the arpeggiator fields or the task queue, and appends exactly one
noteOn record. -/
theorem playNote_frame (s : AudioState) (note : String) (settings : SynthSettings)
    (velocity initialSlide f : ℚ)
    (hinit : s.initialized = true)
    (hres : resolveNote note settings.octave = some f) :
    (playNote s note settings velocity initialSlide).now = s.now ∧
    (playNote s note settings velocity initialSlide).activeNotesForArp =
      s.activeNotesForArp ∧
    (playNote s note settings velocity initialSlide).currentArpIndex =
      s.currentArpIndex ∧
    (playNote s note settings velocity initialSlide).arpTimer = s.arpTimer ∧
    (playNote s note settings velocity initialSlide).pendingTasks = s.pendingTasks ∧
    (playNote s note settings velocity initialSlide).initialized = true ∧
    (playNote s note settings velocity initialSlide).noteOnLog =
      s.noteOnLog ++ [(note, velocity, s.now)] := by
  cases hm : settings.monoMode with
  | false =>
    rw [playNote_alloc_eq s note settings velocity initialSlide f hinit hres (Or.inl hm)]
    exact ⟨rfl, rfl, rfl, rfl, rfl, hinit, rfl⟩
  | true =>
    cases hao : s.activeOscillators with
    | nil =>
      rw [playNote_alloc_eq s note settings velocity initialSlide f hinit hres (Or.inr hao)]
      exact ⟨rfl, rfl, rfl, rfl, rfl, hinit, rfl⟩
    | cons p rest =>
      obtain ⟨en, entry⟩ := p
      rw [playNote_mono_eq s note en entry rest settings velocity initialSlide f hinit hm
        hao hres]
      refine ⟨(updateNoteSlide_frame _ _ _).1, (updateNoteSlide_frame _ _ _).2.1,
        (updateNoteSlide_frame _ _ _).2.2.1, (updateNoteSlide_frame _ _ _).2.2.2.1,
        (updateNoteSlide_frame _ _ _).2.2.2.2.1,
        ((updateNoteSlide_frame _ _ _).2.2.2.2.2.1).trans hinit,
        (updateNoteSlide_frame _ _ _).2.2.2.2.2.2.1⟩

/-- C10: calling startArp while the arpeggiator is not running executes the
first tick synchronously: with the stored sequence sorted to n0 :: rest and
the index at 0, the call itself issues the noteOn for n0 at the current
time (velocity 0.3), schedules its noteOff at the 80 percent gate, and only
the next tick is deferred by the 60/arpRate period. -/
theorem claim_C10_sync_first_tick (s : AudioState) (notes : List String)
    (settings : SynthSettings) (n0 : String) (rest : List String) (f : ℚ)
    (hinit : s.initialized = true) (htimer : s.arpTimer = none)
    (hidx : s.currentArpIndex = 0)
    (hsort : jsSortStrings notes = n0 :: rest)
    (hres : resolveNote n0 settings.octave = some f) :
    (startArp s notes settings).activeNotesForArp = n0 :: rest ∧
    (startArp s notes settings).noteOnLog = s.noteOnLog ++ [(n0, 3/10, s.now)] ∧
    (startArp s notes settings).now = s.now ∧
    (startArp s notes settings).arpTimer =
      some (s.now + 60 / settings.arpRate, settings) ∧
    (startArp s notes settings).pendingTasks = s.pendingTasks ++
      [.arpNoteOff n0 (s.now + 60 / settings.arpRate * (4/5)) settings] ∧
    (startArp s notes settings).currentArpIndex = 1 % (n0 :: rest).length := by
  obtain ⟨hn, ha, hi, ht, hp, _, hl⟩ := playNote_frame
    { s with activeNotesForArp := n0 :: rest, currentArpIndex := 0 } n0 settings
    (3/10) (1/2) f hinit hres
  have harp : startArp s notes settings =
      arpTick { s with activeNotesForArp := n0 :: rest } settings := by
    simp [startArp, hsort, htimer]
  rw [harp]
  unfold arpTick
  simp only [List.isEmpty_cons, Bool.false_eq_true, if_false, hidx, List.getD_cons_zero]
  refine ⟨ha, hl, hn, ?_, ?_, ?_⟩
  · rw [hn]
  · rw [hp, hn]
  · rw [hi, ha]

theorem claim_C10_witness :
    (initialState.initialized = true ∧ initialState.arpTimer = none ∧
     initialState.currentArpIndex = 0 ∧
     jsSortStrings ["E4", "C4"] = "C4" :: ["E4"] ∧
     resolveNote "C4" arpSettings.octave = some (tableValue 4 0)) ∧
    ((startArp initialState ["E4", "C4"] arpSettings).activeNotesForArp =
       "C4" :: ["E4"] ∧
     (startArp initialState ["E4", "C4"] arpSettings).noteOnLog =
       initialState.noteOnLog ++ [("C4", 3/10, initialState.now)] ∧
     (startArp initialState ["E4", "C4"] arpSettings).now = initialState.now ∧
     (startArp initialState ["E4", "C4"] arpSettings).arpTimer =
       some (initialState.now + 60 / arpSettings.arpRate, arpSettings) ∧
     (startArp initialState ["E4", "C4"] arpSettings).pendingTasks =
       initialState.pendingTasks ++
         [.arpNoteOff "C4" (initialState.now + 60 / arpSettings.arpRate * (4/5))
           arpSettings] ∧
     (startArp initialState ["E4", "C4"] arpSettings).currentArpIndex =
       1 % ("C4" :: ["E4"]).length) :=
  ⟨⟨rfl, rfl, rfl, rfl, rfl⟩,
   claim_C10_sync_first_tick initialState ["E4", "C4"] arpSettings "C4" ["E4"]
     (tableValue 4 0) rfl rfl rfl rfl rfl⟩

/-- A route that is not gesture-sourced at destination d leaves the
d-field of the settings object untouched. -/
theorem settingValueAt_applyGestureRoute_skip (gs : GestureState) (d : ModDestination)
    (st : SynthSettings) (q : ModRoute)
    (h : (isGestureSource q.source && decide (q.destination = d)) = false) :
    settingValueAt d (applyGestureRoute gs st q) = settingValueAt d st := by
  obtain ⟨src, dest, amt⟩ := q
  cases hs : isGestureSource src with
  | false => simp [applyGestureRoute, hs]
  | true =>
    rw [hs] at h
    simp only [Bool.true_and, decide_eq_false_iff_not] at h
    cases dest <;> cases d <;>
      simp_all [applyGestureRoute, settingValueAt]

/-- A gesture route writes its destination field as an absolute value:
the result does not depend on the settings object it is applied to. -/
theorem settingValueAt_applyGestureRoute_abs (gs : GestureState) (d : ModDestination)
    (st st0 : SynthSettings) (q : ModRoute)
    (hs : isGestureSource q.source = true) (hdq : q.destination = d)
    (hd : isSettingsDest d = true) :
    settingValueAt d (applyGestureRoute gs st q) =
      settingValueAt d (applyGestureRoute gs st0 q) := by
  obtain ⟨src, dest, amt⟩ := q
  cases dest <;> cases d <;>
    simp_all [applyGestureRoute, settingValueAt, isSettingsDest]

/-- Folding a route list with no gesture route to d leaves the d-field
unchanged. -/
theorem settingValueAt_fold_skip (gs : GestureState) (d : ModDestination)
    (routes : List ModRoute) (st : SynthSettings)
    (h : routes.filter
      (fun q => isGestureSource q.source && decide (q.destination = d)) = []) :
    settingValueAt d (routes.foldl (applyGestureRoute gs) st) = settingValueAt d st := by
  induction routes generalizing st with
  | nil => rfl
  | cons q qs ih =>
    simp only [List.filter_cons] at h
    rw [List.foldl_cons]
    by_cases hq : (isGestureSource q.source && decide (q.destination = d)) = true
    · rw [if_pos hq] at h
      exact absurd h (List.cons_ne_nil _ _)
    · rw [if_neg hq] at h
      rw [ih _ h]
      exact settingValueAt_applyGestureRoute_skip gs d st q (Bool.eq_false_iff.mpr hq)

/-- Folding the route list leaves the d-field at the value written by the
last gesture route to d, irrespective of the starting settings object. -/
theorem settingValueAt_fold_last (gs : GestureState) (d : ModDestination)
    (hd : isSettingsDest d = true) (routes : List ModRoute) :
    ∀ (r : ModRoute) (st st0 : SynthSettings),
      (routes.filter
        (fun q => isGestureSource q.source && decide (q.destination = d))).getLast?
        = some r →
      settingValueAt d (routes.foldl (applyGestureRoute gs) st) =
        settingValueAt d (applyGestureRoute gs st0 r) := by
  induction routes with
  | nil =>
    intro r st st0 hlast
    simp at hlast
  | cons q qs ih =>
    intro r st st0 hlast
    simp only [List.filter_cons] at hlast
    rw [List.foldl_cons]
    by_cases hq : (isGestureSource q.source && decide (q.destination = d)) = true
    · rw [if_pos hq] at hlast
      cases hfq : qs.filter
          (fun q => isGestureSource q.source && decide (q.destination = d)) with
      | nil =>
        rw [hfq] at hlast
        have hr : q = r := by simpa using hlast
        subst hr
        rw [settingValueAt_fold_skip gs d qs _ hfq]
        simp only [Bool.and_eq_true, decide_eq_true_eq] at hq
        exact settingValueAt_applyGestureRoute_abs gs d st st0 q hq.1 hq.2 hd
      | cons x xs =>
        rw [hfq] at hlast
        rw [List.getLast?_cons_cons] at hlast
        refine ih r _ st0 ?_
        rw [hfq]
        exact hlast
    · rw [if_neg hq] at hlast
      exact ih r _ st0 hlast

/-- C9: when the mod-matrix holds two or more gesture-sourced routes to the
same destination, one gesture-evaluation tick leaves that destination's
setting equal to the value the last such route would write on its own,
applied to any settings object whatsoever: earlier routes to the same
destination leave no residue (overwrite, not summation). -/
theorem claim_C9_gesture_overwrite (gs : GestureState) (prev : SynthSettings)
    (d : ModDestination) (r : ModRoute) (l : List ModRoute)
    (hd : isSettingsDest d = true)
    (hfilter : prev.modMatrix.filter
        (fun q => isGestureSource q.source && decide (q.destination = d)) = l ++ [r])
    (htwo : 2 ≤ (l ++ [r]).length) :
    ∀ st0 : SynthSettings,
      settingValueAt d (applyGestures gs prev) =
        settingValueAt d (applyGestureRoute gs st0 r) := by
  intro st0
  have hlast : (prev.modMatrix.filter
      (fun q => isGestureSource q.source && decide (q.destination = d))).getLast?
      = some r := by
    rw [hfilter]
    exact List.getLast?_concat _
  exact settingValueAt_fold_last gs d hd prev.modMatrix r _ st0 hlast

theorem claim_C9_witness :
    (isSettingsDest .Cutoff = true ∧
     gestureRouteSettings.modMatrix.filter
       (fun q => isGestureSource q.source &&
         decide (q.destination = ModDestination.Cutoff)) =
       [(⟨.Gesture_L_H, .Cutoff, 1⟩ : ModRoute)] ++ [(⟨.Gesture_R_V, .Cutoff, 1⟩ : ModRoute)] ∧
     2 ≤ ([(⟨.Gesture_L_H, .Cutoff, 1⟩ : ModRoute)] ++
       [(⟨.Gesture_R_V, .Cutoff, 1⟩ : ModRoute)]).length) ∧
    settingValueAt .Cutoff (applyGestures sampleGesture gestureRouteSettings) =
      settingValueAt .Cutoff
        (applyGestureRoute sampleGesture sampleSettings ⟨.Gesture_R_V, .Cutoff, 1⟩) :=
  ⟨⟨rfl, rfl, by decide⟩,
   claim_C9_gesture_overwrite sampleGesture gestureRouteSettings .Cutoff
     ⟨.Gesture_R_V, .Cutoff, 1⟩ [⟨.Gesture_L_H, .Cutoff, 1⟩] rfl rfl (by decide)
     sampleSettings⟩

theorem updateNoteSlide_KeysUnique (t : AudioState) (note : String) (slide : ℚ)
    (h : KeysUnique t.activeOscillators) :
    KeysUnique (updateNoteSlide t note slide).activeOscillators := by
  cases hget : mapGet t.activeOscillators note with
  | none => simpa [updateNoteSlide, hget] using h
  | some v =>
    cases hin : t.initialized with
    | false => simpa [updateNoteSlide, hget, hin] using h
    | true =>
      have := KeysUnique_mapUpdate (fun v => { v with slideOffset := v.slideOffset ++
        [.setTargetAtTime slide t.now (1/100)] }) t.activeOscillators note h
      simpa [updateNoteSlide, hget, hin] using this

theorem playNote_KeysUnique (s : AudioState) (note : String) (settings : SynthSettings)
    (velocity initialSlide : ℚ) (h : KeysUnique s.activeOscillators) :
    KeysUnique (playNote s note settings velocity initialSlide).activeOscillators := by
  cases hinit : s.initialized with
  | false => simpa [playNote, hinit] using h
  | true =>
    cases hres : resolveNote note settings.octave with
    | none => simpa [playNote, hinit, hres] using h
    | some baseFreq =>
      cases hm : settings.monoMode with
      | false =>
        rw [playNote_alloc_eq s note settings velocity initialSlide baseFreq hinit hres
          (Or.inl hm)]
        exact KeysUnique_mapSet _ _ _ h
      | true =>
        cases hao : s.activeOscillators with
        | nil =>
          rw [playNote_alloc_eq s note settings velocity initialSlide baseFreq hinit hres
            (Or.inr hao)]
          exact KeysUnique_mapSet _ _ _ h
        | cons p rest =>
          obtain ⟨en, entry⟩ := p
          rw [playNote_mono_eq s note en entry rest settings velocity initialSlide
            baseFreq hinit hm hao hres]
          apply updateNoteSlide_KeysUnique
          rw [hao] at h
          have hco : KeysUnique ((en, retargetVoice s settings baseFreq entry) :: rest) := h
          by_cases hk : en = note
          · simpa [hk] using hco
          · have := KeysUnique_mapSet
              (mapDelete ((en, retargetVoice s settings baseFreq entry) :: rest) en) note
              (retargetVoice s settings baseFreq entry) (KeysUnique_mapDelete _ _ hco)
            simpa [hk] using this

theorem stopNote_KeysUnique (s : AudioState) (note : String) (settings : SynthSettings)
    (imm : Bool) (h : KeysUnique s.activeOscillators) :
    KeysUnique (stopNote s note settings imm).activeOscillators := by
  cases hget : mapGet s.activeOscillators note with
  | none => simpa [stopNote, hget] using h
  | some entry =>
    cases hin : s.initialized with
    | false => simpa [stopNote, hget, hin] using h
    | true =>
      by_cases hsus : (s.currentSustain && !imm) = true
      · have := KeysUnique_mapUpdate (fun v => { v with released := true })
          s.activeOscillators note h
        simpa [stopNote, hget, hin, hsus] using this
      · have := KeysUnique_mapUpdate
          (releaseUpd s.now (if imm then 1/100 else settings.release))
          s.activeOscillators note h
        simpa [stopNote, hget, hin, hsus] using this

theorem applyTeardown_KeysUnique (s : AudioState) (note : String) (vid : Nat)
    (h : KeysUnique s.activeOscillators) :
    KeysUnique (applyTeardown s note vid).activeOscillators := by
  cases hget : mapGet s.activeOscillators note with
  | none => simpa [applyTeardown, hget] using h
  | some v =>
    by_cases hid : v.id = vid
    · have := KeysUnique_mapDelete s.activeOscillators note h
      simpa [applyTeardown, hget, hid] using this
    · simpa [applyTeardown, hget, hid] using h

theorem fireTask_KeysUnique (s : AudioState) (t : PendingTask)
    (h : KeysUnique s.activeOscillators) :
    KeysUnique (fireTask s t).activeOscillators := by
  unfold fireTask
  by_cases hmem : t ∈ s.pendingTasks
  · rw [if_pos hmem]
    cases t with
    | teardown note vid fa => exact applyTeardown_KeysUnique _ _ _ h
    | arpNoteOff note fa st => exact stopNote_KeysUnique _ _ _ _ h
  · rw [if_neg hmem]
    exact h

theorem stepOp_KeysUnique (s : AudioState) (op : EngineOp)
    (h : KeysUnique s.activeOscillators) :
    KeysUnique (stepOp s op).activeOscillators := by
  cases op with
  | noteOn note settings v sl => exact playNote_KeysUnique _ _ _ _ _ h
  | noteOff note settings imm => exact stopNote_KeysUnique _ _ _ _ h
  | task t => exact fireTask_KeysUnique _ _ h

theorem runOps_KeysUnique (s : AudioState) (ops : List EngineOp)
    (h : KeysUnique s.activeOscillators) :
    KeysUnique (runOps s ops).activeOscillators := by
  induction ops generalizing s with
  | nil => exact h
  | cons op rest ih => exact ih _ (stepOp_KeysUnique s op h)

theorem updateNoteSlide_length (t : AudioState) (note : String) (slide : ℚ) :
    (updateNoteSlide t note slide).activeOscillators.length =
      t.activeOscillators.length := by
  cases hget : mapGet t.activeOscillators note with
  | none => simp [updateNoteSlide, hget]
  | some v =>
    cases hin : t.initialized with
    | false => simp [updateNoteSlide, hget, hin]
    | true => simp [updateNoteSlide, hget, hin, length_mapUpdate]

theorem playNote_mono_length (s : AudioState) (note : String) (settings : SynthSettings)
    (velocity initialSlide : ℚ) (hm : settings.monoMode = true)
    (h : s.activeOscillators.length ≤ 1) :
    (playNote s note settings velocity initialSlide).activeOscillators.length ≤ 1 := by
  cases hinit : s.initialized with
  | false => simpa [playNote, hinit] using h
  | true =>
    cases hres : resolveNote note settings.octave with
    | none => simpa [playNote, hinit, hres] using h
    | some baseFreq =>
      cases hao : s.activeOscillators with
      | nil =>
        rw [playNote_alloc_eq s note settings velocity initialSlide baseFreq hinit hres
          (Or.inr hao)]
        simp [hao, mapSet]
      | cons p rest =>
        obtain ⟨en, entry⟩ := p
        have hrest : rest = [] := by
          rw [hao] at h
          simpa using h
        subst hrest
        rw [playNote_mono_eq s note en entry [] settings velocity initialSlide baseFreq
          hinit hm hao hres]
        rw [updateNoteSlide_length]
        by_cases hk : en = note <;> simp [hk, mapSet, mapDelete]

theorem stopNote_length (s : AudioState) (note : String) (settings : SynthSettings)
    (imm : Bool) :
    (stopNote s note settings imm).activeOscillators.length =
      s.activeOscillators.length := by
  cases hget : mapGet s.activeOscillators note with
  | none => simp [stopNote, hget]
  | some entry =>
    cases hin : s.initialized with
    | false => simp [stopNote, hget, hin]
    | true =>
      by_cases hsus : (s.currentSustain && !imm) = true
      · simp [stopNote, hget, hin, hsus, length_mapUpdate]
      · simp [stopNote, hget, hin, hsus, length_mapUpdate]

theorem applyTeardown_length_le (s : AudioState) (note : String) (vid : Nat) :
    (applyTeardown s note vid).activeOscillators.length ≤
      s.activeOscillators.length := by
  cases hget : mapGet s.activeOscillators note with
  | none => simp [applyTeardown, hget]
  | some v =>
    by_cases hid : v.id = vid
    · have := length_mapDelete_le s.activeOscillators note
      simpa [applyTeardown, hget, hid] using this
    · simp [applyTeardown, hget, hid]

theorem fireTask_length_le (s : AudioState) (t : PendingTask) :
    (fireTask s t).activeOscillators.length ≤ s.activeOscillators.length := by
  unfold fireTask
  by_cases hmem : t ∈ s.pendingTasks
  · rw [if_pos hmem]
    cases t with
    | teardown note vid fa => exact applyTeardown_length_le _ _ _
    | arpNoteOff note fa st => exact le_of_eq (stopNote_length _ _ _ _)
  · rw [if_neg hmem]

theorem stepOp_mono_length (s : AudioState) (op : EngineOp)
    (hm : op.isMono = true) (h : s.activeOscillators.length ≤ 1) :
    (stepOp s op).activeOscillators.length ≤ 1 := by
  cases op with
  | noteOn note settings v sl => exact playNote_mono_length s note settings v sl hm h
  | noteOff note settings imm =>
    exact le_trans (le_of_eq (stopNote_length s note settings imm)) h
  | task t => exact le_trans (fireTask_length_le s t) h

theorem runOps_mono_length (s : AudioState) (ops : List EngineOp)
    (hm : ∀ op ∈ ops, op.isMono = true) (h : s.activeOscillators.length ≤ 1) :
    (runOps s ops).activeOscillators.length ≤ 1 := by
  induction ops generalizing s with
  | nil => exact h
  | cons op rest ih =>
    exact ih _ (fun q hq => hm q (List.mem_cons_of_mem _ hq))
      (stepOp_mono_length s op (hm op (List.mem_cons_self _ _)) h)

theorem updateNoteSlide_single (t : AudioState) (note : String) (slide : ℚ)
    (e : ActiveOscillator) (hmap : t.activeOscillators = [(note, e)])
    (hinit : t.initialized = true) :
    (updateNoteSlide t note slide).activeOscillators =
      [(note, { e with slideOffset := e.slideOffset ++
        [.setTargetAtTime slide t.now (1/100)] })] := by
  simp [updateNoteSlide, hmap, hinit, mapGet, mapUpdate]

/-- The mono branch on a single-voice map renames the entry in place: the
result is again a single-entry map keyed by the new note, holding the same
voice object (same id) with the new base frequency and released cleared. -/
theorem playNote_mono_rename (s : AudioState) (note k : String) (v : ActiveOscillator)
    (settings : SynthSettings) (velocity initialSlide baseFreq : ℚ)
    (hinit : s.initialized = true) (hm : settings.monoMode = true)
    (hmap : s.activeOscillators = [(k, v)])
    (hres : resolveNote note settings.octave = some baseFreq) :
    ∃ w, (playNote s note settings velocity initialSlide).activeOscillators = [(note, w)]
      ∧ w.id = v.id ∧ w.baseFreq = baseFreq ∧ w.released = false := by
  rw [playNote_mono_eq s note k v [] settings velocity initialSlide baseFreq hinit hm
    hmap hres]
  have hmap1 : (if k = note
      then (k, retargetVoice s settings baseFreq v)
        :: ([] : List (String × ActiveOscillator))
      else mapSet (mapDelete ((k, retargetVoice s settings baseFreq v) :: []) k) note
        (retargetVoice s settings baseFreq v))
      = [(note, retargetVoice s settings baseFreq v)] := by
    by_cases hk : k = note
    · simp [hk]
    · simp [hk, mapDelete, mapSet]
  refine ⟨{ retargetVoice s settings baseFreq v with
      slideOffset := (retargetVoice s settings baseFreq v).slideOffset ++
        [.setTargetAtTime initialSlide s.now (1/100)] }, ?_, rfl, rfl, rfl⟩
  exact updateNoteSlide_single _ note initialSlide (retargetVoice s settings baseFreq v)
    hmap1 hinit

/-- C8: the allocation invariant across operation sequences of noteOn,
noteOff and scheduled-callback firings: (a) the live-voice map never holds
two voices under one noteKey (JS Map key uniqueness is preserved by every
operation word); (b) along any word whose noteOns all carry mono settings,
a map of at most one voice keeps at most one voice; (c) a mono noteOn on a
map holding exactly one voice renames that voice's key in place: the same
voice object (same id) survives alone under the new note's key with the
new base frequency and its released flag cleared. -/
theorem claim_C8_allocation_invariant :
    (∀ (s : AudioState) (ops : List EngineOp),
      KeysUnique s.activeOscillators →
      KeysUnique (runOps s ops).activeOscillators) ∧
    (∀ (s : AudioState) (ops : List EngineOp),
      (∀ op ∈ ops, op.isMono = true) →
      s.activeOscillators.length ≤ 1 →
      (runOps s ops).activeOscillators.length ≤ 1) ∧
    (∀ (s : AudioState) (note k : String) (v : ActiveOscillator)
       (settings : SynthSettings) (velocity initialSlide baseFreq : ℚ),
      s.initialized = true → settings.monoMode = true →
      s.activeOscillators = [(k, v)] →
      resolveNote note settings.octave = some baseFreq →
      ∃ w, (playNote s note settings velocity initialSlide).activeOscillators
          = [(note, w)] ∧ w.id = v.id ∧ w.baseFreq = baseFreq ∧ w.released = false) :=
  ⟨fun s ops h => runOps_KeysUnique s ops h,
   fun s ops hm h => runOps_mono_length s ops hm h,
   fun s note k v settings velocity initialSlide baseFreq hinit hm hmap hres =>
     playNote_mono_rename s note k v settings velocity initialSlide baseFreq hinit hm
       hmap hres⟩

theorem claim_C8_witness :
    (KeysUnique oneVoiceState.activeOscillators ∧
     KeysUnique (runOps oneVoiceState
       [.noteOn "E4" sampleSettings (2/5) (1/2),
        .noteOff "C4" sampleSettings false]).activeOscillators) ∧
    ((∀ op ∈ ([.noteOn "E4" monoSettings (2/5) (1/2),
        .noteOff "E4" monoSettings false] : List EngineOp), op.isMono = true) ∧
     oneVoiceState.activeOscillators.length ≤ 1 ∧
     (runOps oneVoiceState [.noteOn "E4" monoSettings (2/5) (1/2),
        .noteOff "E4" monoSettings false]).activeOscillators.length ≤ 1) ∧
    (oneVoiceState.initialized = true ∧ monoSettings.monoMode = true ∧
     oneVoiceState.activeOscillators = [("C4", sampleVoice)] ∧
     resolveNote "E4" monoSettings.octave = some (tableValue 4 4) ∧
     ∃ w, (playNote oneVoiceState "E4" monoSettings (2/5) (1/2)).activeOscillators
         = [("E4", w)] ∧ w.id = sampleVoice.id ∧ w.baseFreq = tableValue 4 4 ∧
         w.released = false) :=
  ⟨⟨by unfold KeysUnique; decide,
    claim_C8_allocation_invariant.1 oneVoiceState
      [.noteOn "E4" sampleSettings (2/5) (1/2), .noteOff "C4" sampleSettings false]
      (by unfold KeysUnique; decide)⟩,
   ⟨by decide, by decide,
    claim_C8_allocation_invariant.2.1 oneVoiceState
      [.noteOn "E4" monoSettings (2/5) (1/2), .noteOff "E4" monoSettings false]
      (by decide) (by decide)⟩,
   ⟨rfl, rfl, rfl, rfl,
    claim_C8_allocation_invariant.2.2 oneVoiceState "E4" "C4" sampleVoice monoSettings
      (2/5) (1/2) (tableValue 4 4) rfl rfl rfl rfl⟩⟩

theorem charListLt_asymm : ∀ as bs : List Char,
    charListLt as bs = true → charListLt bs as = false := by
  intro as
  induction as with
  | nil =>
    intro bs h
    cases bs with
    | nil => simp [charListLt] at h
    | cons b bs => rfl
  | cons a as ih =>
    intro bs h
    cases bs with
    | nil => simp [charListLt] at h
    | cons b bs =>
      simp only [charListLt] at h ⊢
      split_ifs at h ⊢ <;> first | rfl | omega | exact ih bs h | simp_all

theorem charListLt_le_trans : ∀ as bs cs : List Char,
    charListLt bs as = false → charListLt cs bs = false → charListLt cs as = false := by
  intro as
  induction as with
  | nil =>
    intro bs cs h1 h2
    cases cs with
    | nil => rfl
    | cons c cs =>
      cases bs with
      | nil => simpa [charListLt] using h2
      | cons b bs => simpa [charListLt] using h1
  | cons a as ih =>
    intro bs cs h1 h2
    cases bs with
    | nil => simp [charListLt] at h1
    | cons b bs =>
      cases cs with
      | nil => simp [charListLt] at h2
      | cons c cs =>
        simp only [charListLt] at h1 h2 ⊢
        split_ifs at h1 h2 ⊢ <;> first | rfl | omega | exact ih bs cs h1 h2 | simp_all

theorem jsLe_total (a b : String) : jsLe a b = true ∨ jsLe b a = true := by
  unfold jsLe
  cases h : charListLt b.data a.data with
  | false => exact Or.inl rfl
  | true =>
    right
    rw [charListLt_asymm _ _ h]
    rfl

theorem jsLe_trans (a b c : String) (h1 : jsLe a b = true) (h2 : jsLe b c = true) :
    jsLe a c = true := by
  unfold jsLe at h1 h2 ⊢
  simp only [Bool.not_eq_true'] at h1 h2 ⊢
  exact charListLt_le_trans a.data b.data c.data h1 h2

theorem insertSorted_perm (a : String) (l : List String) :
    (insertSorted a l).Perm (a :: l) := by
  induction l with
  | nil => exact List.Perm.refl _
  | cons b rest ih =>
    by_cases h : jsLe a b = true
    · rw [insertSorted, if_pos h]
    · rw [insertSorted, if_neg h]
      exact (ih.cons b).trans (List.Perm.swap a b rest)

theorem jsSortStrings_perm (l : List String) : (jsSortStrings l).Perm l := by
  induction l with
  | nil => exact List.Perm.refl _
  | cons a rest ih =>
    exact (insertSorted_perm a (jsSortStrings rest)).trans (ih.cons a)

theorem pairwise_insertSorted (a : String) (l : List String)
    (h : l.Pairwise (fun x y => jsLe x y = true)) :
    (insertSorted a l).Pairwise (fun x y => jsLe x y = true) := by
  induction l with
  | nil => simp [insertSorted]
  | cons b rest ih =>
    rw [List.pairwise_cons] at h
    obtain ⟨hb, hrest⟩ := h
    by_cases hab : jsLe a b = true
    · rw [insertSorted, if_pos hab, List.pairwise_cons]
      constructor
      · intro x hx
        rcases List.mem_cons.mp hx with rfl | hx2
        · exact hab
        · exact jsLe_trans a b x hab (hb x hx2)
      · exact List.pairwise_cons.mpr ⟨hb, hrest⟩
    · rw [insertSorted, if_neg hab, List.pairwise_cons]
      constructor
      · intro x hx
        have hx3 := (insertSorted_perm a rest).mem_iff.mp hx
        rcases List.mem_cons.mp hx3 with hxa | hx2
        · rw [hxa]
          rcases jsLe_total a b with h1 | h1
          · exact absurd h1 hab
          · exact h1
        · exact hb x hx2
      · exact ih hrest

theorem jsSortStrings_sorted (l : List String) :
    (jsSortStrings l).Pairwise (fun x y => jsLe x y = true) := by
  induction l with
  | nil => simp [jsSortStrings]
  | cons a rest ih => exact pairwise_insertSorted a (jsSortStrings rest) ih

theorem playNote_activeNotesForArp (s : AudioState) (note : String)
    (settings : SynthSettings) (velocity initialSlide : ℚ) :
    (playNote s note settings velocity initialSlide).activeNotesForArp =
      s.activeNotesForArp := by
  cases hinit : s.initialized with
  | false => simp [playNote, hinit]
  | true =>
    cases hres : resolveNote note settings.octave with
    | none => simp [playNote, hinit, hres]
    | some baseFreq =>
      cases hm : settings.monoMode with
      | false =>
        rw [playNote_alloc_eq s note settings velocity initialSlide baseFreq hinit hres
          (Or.inl hm)]
      | true =>
        cases hao : s.activeOscillators with
        | nil =>
          rw [playNote_alloc_eq s note settings velocity initialSlide baseFreq hinit hres
            (Or.inr hao)]
        | cons p rest =>
          obtain ⟨en, entry⟩ := p
          rw [playNote_mono_eq s note en entry rest settings velocity initialSlide
            baseFreq hinit hm hao hres]
          exact (updateNoteSlide_frame _ _ _).2.1

theorem arpTick_activeNotesForArp (t : AudioState) (settings : SynthSettings) :
    (arpTick t settings).activeNotesForArp = t.activeNotesForArp := by
  unfold arpTick
  by_cases he : t.activeNotesForArp.isEmpty = true
  · rw [if_pos he]
    rfl
  · rw [if_neg he]
    exact playNote_activeNotesForArp _ _ _ _ _

theorem startArp_stores_sorted (s : AudioState) (notes : List String)
    (settings : SynthSettings) :
    (startArp s notes settings).activeNotesForArp = jsSortStrings notes := by
  cases ht : s.arpTimer with
  | some ts => simp [startArp, ht]
  | none =>
    have h2 := arpTick_activeNotesForArp
      { s with activeNotesForArp := jsSortStrings notes } settings
    simpa [startArp, ht] using h2

/-- The tick closure with a non-empty stored sequence and a resolving note
at the current index: fires noteOn at velocity 0.3, queues the 80-percent
gate noteOff, advances the index modulo the length, reschedules the timer
one 60/arpRate period later, and leaves clock and sequence alone. -/
theorem arpTick_spec (t : AudioState) (settings : SynthSettings) (n0 : String)
    (rest : List String) (i : ℕ) (f : ℚ)
    (hne : t.activeNotesForArp = n0 :: rest)
    (hidx : t.currentArpIndex = i)
    (hinit : t.initialized = true)
    (hres : resolveNote ((n0 :: rest).getD i "") settings.octave = some f) :
    (arpTick t settings).initialized = true ∧
    (arpTick t settings).activeNotesForArp = n0 :: rest ∧
    (arpTick t settings).currentArpIndex = (i + 1) % (n0 :: rest).length ∧
    (arpTick t settings).now = t.now ∧
    (arpTick t settings).arpTimer = some (t.now + 60 / settings.arpRate, settings) ∧
    (arpTick t settings).noteOnLog =
      t.noteOnLog ++ [((n0 :: rest).getD i "", 3/10, t.now)] ∧
    (arpTick t settings).pendingTasks = t.pendingTasks ++
      [.arpNoteOff ((n0 :: rest).getD i "")
        (t.now + 60 / settings.arpRate * (4/5)) settings] := by
  obtain ⟨hn, ha, hi, ht2, hp, hin, hl⟩ := playNote_frame t
    ((n0 :: rest).getD i "") settings (3/10) (1/2) f hinit hres
  unfold arpTick
  rw [hne, hidx]
  simp only [List.isEmpty_cons, Bool.false_eq_true, if_false]
  refine ⟨hin, ha.trans hne, ?_, hn, ?_, hl, ?_⟩
  · rw [hi, ha, hne, hidx]
  · rw [hn]
  · rw [hp, hn]

theorem runTicks_succ (s : AudioState) (n : ℕ) :
    runTicks s (n + 1) = fireArpTick (runTicks s n) := by
  induction n generalizing s with
  | zero => rfl
  | succ m ih =>
    show runTicks (fireArpTick s) (m + 1) = fireArpTick (runTicks (fireArpTick s) m)
    exact ih (fireArpTick s)

theorem fireArpTick_some (s : AudioState) (ts : ℚ) (settings : SynthSettings)
    (h : s.arpTimer = some (ts, settings)) :
    fireArpTick s =
      arpTick { s with now := max s.now ts, arpTimer := none } settings := by
  unfold fireArpTick
  rw [h]

theorem arpNote_resolves (k : ℕ) :
    ∃ f, resolveNote (arpNotes.getD (k % 3) "") arpSettings.octave = some f := by
  have h3 : k % 3 = 0 ∨ k % 3 = 1 ∨ k % 3 = 2 := by omega
  rcases h3 with h | h | h <;> rw [h]
  · exact ⟨tableValue 4 0, rfl⟩
  · exact ⟨tableValue 4 4, rfl⟩
  · exact ⟨tableValue 4 7, rfl⟩

/-- The concrete trace of start(["C4","E4","G4"], rate 120): after the
synchronous tick 0 and n fired timer ticks, tick k has logged note
arpNotes[k mod 3] at velocity 0.3 and time k/2 and queued its noteOff at
k/2 + 2/5 (the 0.4 s gate), the index stands at (n+1) mod 3 and the timer
at (n+1)/2. -/
theorem arp_trace_invariant (n : ℕ) :
    (arpStateAt n).initialized = true ∧
    (arpStateAt n).activeNotesForArp = arpNotes ∧
    (arpStateAt n).currentArpIndex = (n + 1) % 3 ∧
    (arpStateAt n).now = (n : ℚ) * (1/2) ∧
    (arpStateAt n).arpTimer = some (((n : ℚ) + 1) * (1/2), arpSettings) ∧
    (arpStateAt n).noteOnLog =
      (List.range (n + 1)).map (fun k => (arpNoteAt k, (3 : ℚ)/10, (k : ℚ) * (1/2))) ∧
    (arpStateAt n).pendingTasks =
      (List.range (n + 1)).map (fun k =>
        PendingTask.arpNoteOff (arpNoteAt k) ((k : ℚ) * (1/2) + 2/5) arpSettings) := by
  have hrate : (60 : ℚ) / arpSettings.arpRate = 1/2 := by
    norm_num [arpSettings, sampleSettings]
  induction n with
  | zero =>
    obtain ⟨h1, h2, h3, h4, h5, h6, h7⟩ := arpTick_spec
      { initialState with activeNotesForArp := arpNotes } arpSettings
      "C4" ["E4", "G4"] 0 (tableValue 4 0) rfl rfl rfl rfl
    have hz : arpStateAt 0 =
        arpTick { initialState with activeNotesForArp := arpNotes } arpSettings := rfl
    rw [hz]
    refine ⟨h1, h2, h3, h4.trans (by norm_num [initialState]), h5.trans ?_, h6.trans ?_,
      h7.trans ?_⟩
    · rw [hrate]
      norm_num [initialState]
    · simp [arpNoteAt, arpNotes, List.range_succ, initialState]
    · rw [hrate]
      simp [arpNoteAt, arpNotes, List.range_succ, initialState]
      norm_num
  | succ n ih =>
    obtain ⟨ih1, ih2, ih3, ih4, ih5, ih6, ih7⟩ := ih
    have hstep : arpStateAt (n + 1) = fireArpTick (arpStateAt n) := runTicks_succ _ n
    have hfire : fireArpTick (arpStateAt n) =
        arpTick { arpStateAt n with
          now := max (arpStateAt n).now (((n : ℚ) + 1) * (1/2)), arpTimer := none }
          arpSettings :=
      fireArpTick_some (arpStateAt n) _ _ ih5
    have htnow : ({ arpStateAt n with
        now := max (arpStateAt n).now (((n : ℚ) + 1) * (1/2)),
        arpTimer := none } : AudioState).now = ((n : ℚ) + 1) * (1/2) := by
      show max (arpStateAt n).now _ = _
      rw [ih4]
      apply max_eq_right
      have hn1 : (n : ℚ) ≤ (n : ℚ) + 1 := by linarith
      nlinarith
    obtain ⟨f, hf⟩ := arpNote_resolves (n + 1)
    obtain ⟨h1, h2, h3, h4, h5, h6, h7⟩ := arpTick_spec
      { arpStateAt n with
        now := max (arpStateAt n).now (((n : ℚ) + 1) * (1/2)), arpTimer := none }
      arpSettings "C4" ["E4", "G4"] ((n + 1) % 3) f ih2 ih3 ih1 hf
    have hlog : ({ arpStateAt n with
        now := max (arpStateAt n).now (((n : ℚ) + 1) * (1/2)),
        arpTimer := none } : AudioState).noteOnLog =
        (List.range (n + 1)).map
          (fun k => (arpNoteAt k, (3 : ℚ)/10, (k : ℚ) * (1/2))) := ih6
    have hpend : ({ arpStateAt n with
        now := max (arpStateAt n).now (((n : ℚ) + 1) * (1/2)),
        arpTimer := none } : AudioState).pendingTasks =
        (List.range (n + 1)).map (fun k =>
          PendingTask.arpNoteOff (arpNoteAt k) ((k : ℚ) * (1/2) + 2/5) arpSettings) := ih7
    rw [hstep, hfire]
    refine ⟨h1, h2,
      h3.trans (by show ((n + 1) % 3 + 1) % 3 = (n + 1 + 1) % 3; omega),
      h4.trans ?_, h5.trans ?_, h6.trans ?_, h7.trans ?_⟩
    · rw [htnow]
      push_cast
      ring
    · rw [htnow, hrate]
      refine congrArg some (Prod.ext ?_ rfl)
      push_cast
      ring
    · rw [hlog, htnow]
      conv_rhs => rw [List.range_succ, List.map_append]
      simp only [List.map_cons, List.map_nil]
      have htime : ((n : ℚ) + 1) * (1/2) = ((n + 1 : ℕ) : ℚ) * (1/2) := by
        push_cast
        ring
      rw [htime]
      rfl
    · rw [hpend, htnow, hrate]
      conv_rhs => rw [List.range_succ, List.map_append]
      simp only [List.map_cons, List.map_nil]
      have hgate : ((n : ℚ) + 1) * (1/2) + 1/2 * (4/5) =
          ((n + 1 : ℕ) : ℚ) * (1/2) + 2/5 := by
        push_cast
        ring
      rw [hgate]
      rfl

/-- C6: startArp stores the sorted-ascending copy of the note list (an
ascending permutation under the JS default comparator); a tick with a
non-empty sequence and a resolving note fires noteOn at velocity 0.3,
queues the matching noteOff 0.8 * (60/arpRate) later, advances the index
modulo the length and reschedules 60/arpRate later; so
start(["C4","E4","G4"], rate 120) note-ons C4, E4, G4, C4, ... at 0.5 s
intervals with 0.4 s gates for as long as ticks keep firing. -/
theorem claim_C6_arp :
    (∀ (s : AudioState) (notes : List String) (settings : SynthSettings),
      (startArp s notes settings).activeNotesForArp = jsSortStrings notes ∧
      (jsSortStrings notes).Perm notes ∧
      (jsSortStrings notes).Pairwise (fun x y => jsLe x y = true)) ∧
    (∀ (t : AudioState) (settings : SynthSettings) (n0 : String) (rest : List String)
       (i : ℕ) (f : ℚ),
      t.activeNotesForArp = n0 :: rest → t.currentArpIndex = i →
      t.initialized = true →
      resolveNote ((n0 :: rest).getD i "") settings.octave = some f →
      (arpTick t settings).noteOnLog =
        t.noteOnLog ++ [((n0 :: rest).getD i "", 3/10, t.now)] ∧
      (arpTick t settings).pendingTasks = t.pendingTasks ++
        [.arpNoteOff ((n0 :: rest).getD i "")
          (t.now + 60 / settings.arpRate * (4/5)) settings] ∧
      (arpTick t settings).currentArpIndex = (i + 1) % (n0 :: rest).length ∧
      (arpTick t settings).arpTimer = some (t.now + 60 / settings.arpRate, settings)) ∧
    (∀ n : ℕ,
      (arpStateAt n).noteOnLog =
        (List.range (n + 1)).map (fun k => (arpNoteAt k, (3 : ℚ)/10, (k : ℚ) * (1/2))) ∧
      (arpStateAt n).pendingTasks =
        (List.range (n + 1)).map (fun k =>
          PendingTask.arpNoteOff (arpNoteAt k) ((k : ℚ) * (1/2) + 2/5) arpSettings)) :=
  ⟨fun s notes settings => ⟨startArp_stores_sorted s notes settings,
     jsSortStrings_perm notes, jsSortStrings_sorted notes⟩,
   fun t settings n0 rest i f hne hidx hinit hres =>
     ⟨(arpTick_spec t settings n0 rest i f hne hidx hinit hres).2.2.2.2.2.1,
      (arpTick_spec t settings n0 rest i f hne hidx hinit hres).2.2.2.2.2.2,
      (arpTick_spec t settings n0 rest i f hne hidx hinit hres).2.2.1,
      (arpTick_spec t settings n0 rest i f hne hidx hinit hres).2.2.2.2.1⟩,
   fun n => ⟨(arp_trace_invariant n).2.2.2.2.2.1, (arp_trace_invariant n).2.2.2.2.2.2⟩⟩

theorem claim_C6_witness :
    ((startArp initialState ["E4", "C4"] arpSettings).activeNotesForArp =
       jsSortStrings ["E4", "C4"] ∧
     (jsSortStrings ["E4", "C4"]).Perm ["E4", "C4"] ∧
     (jsSortStrings ["E4", "C4"]).Pairwise (fun x y => jsLe x y = true)) ∧
    (({ initialState with activeNotesForArp := arpNotes } : AudioState).activeNotesForArp
        = "C4" :: ["E4", "G4"] ∧
     ({ initialState with activeNotesForArp := arpNotes } : AudioState).currentArpIndex
        = 0 ∧
     ({ initialState with activeNotesForArp := arpNotes } : AudioState).initialized
        = true ∧
     resolveNote (("C4" :: ["E4", "G4"]).getD 0 "") arpSettings.octave =
       some (tableValue 4 0) ∧
     ((arpTick { initialState with activeNotesForArp := arpNotes }
         arpSettings).noteOnLog =
       ({ initialState with activeNotesForArp := arpNotes } : AudioState).noteOnLog ++
         [(("C4" :: ["E4", "G4"]).getD 0 "", 3/10,
           ({ initialState with activeNotesForArp := arpNotes } : AudioState).now)] ∧
      (arpTick { initialState with activeNotesForArp := arpNotes }
         arpSettings).pendingTasks =
       ({ initialState with activeNotesForArp := arpNotes } : AudioState).pendingTasks ++
         [.arpNoteOff (("C4" :: ["E4", "G4"]).getD 0 "")
           (({ initialState with activeNotesForArp := arpNotes } : AudioState).now +
             60 / arpSettings.arpRate * (4/5)) arpSettings] ∧
      (arpTick { initialState with activeNotesForArp := arpNotes }
         arpSettings).currentArpIndex = (0 + 1) % ("C4" :: ["E4", "G4"]).length ∧
      (arpTick { initialState with activeNotesForArp := arpNotes }
         arpSettings).arpTimer =
        some (({ initialState with activeNotesForArp := arpNotes } : AudioState).now +
          60 / arpSettings.arpRate, arpSettings))) ∧
    ((arpStateAt 1).noteOnLog =
      (List.range 2).map (fun k => (arpNoteAt k, (3 : ℚ)/10, (k : ℚ) * (1/2))) ∧
     (arpStateAt 1).pendingTasks =
      (List.range 2).map (fun k =>
        PendingTask.arpNoteOff (arpNoteAt k) ((k : ℚ) * (1/2) + 2/5) arpSettings)) :=
  ⟨claim_C6_arp.1 initialState ["E4", "C4"] arpSettings,
   ⟨rfl, rfl, rfl, rfl,
    claim_C6_arp.2.1 { initialState with activeNotesForArp := arpNotes } arpSettings
      "C4" ["E4", "G4"] 0 (tableValue 4 0) rfl rfl rfl rfl⟩,
   claim_C6_arp.2.2 1⟩
